import Mathlib

/-!
# proccdns: the query-resolution logic of `main.go`

A shallow embedding of `DNSProxy.handleDNS` (src/main.go, lines 28-80) and of the
library calls it makes, followed by theorems about the override lookup and the
ordered failover over the upstream list.

Conventions of the embedding:

* a Go `string` is a list of characters (`GoString`);
* the effects of one call of `handleDNS` (log lines, upstream exchanges, calls of
  `w.WriteMsg`) are collected in a `Run`;
* the network is explicit state: `Exchange` takes the state of the network before
  the exchange and returns the result together with the state after it, so an
  upstream may answer differently each time it is asked;
* `dns.NewRR` and `client.Exchange` belong to the imported package
  `github.com/miekg/dns`; `handleDNS` takes them as parameters `NewRR` and
  `Exchange`, and the theorems hold for every behaviour of both;
* `domainMappings` is a Go map, whose `range` order is unspecified: the table is
  the list of its entries in the order in which the loop of this call visits them.
-/

set_option autoImplicit false

namespace Proccdns

/-! ## Strings (package `strings`) -/

/-- A Go string. -/
abbrev GoString := List Char

/-- Lower-case form of one character: the letters `A`-`Z` are mapped to `a`-`z`.
Names decoded from the wire by the dns package are printable ASCII (other bytes are
written as escapes), which is the range covered here. -/
def toLowerRune (c : Char) : Char :=
  if 'A' ≤ c ∧ c ≤ 'Z' then Char.ofNat (c.toNat + 32) else c

/-- The function `strings.ToLower`. -/
def ToLower (s : GoString) : GoString :=
  s.map toLowerRune

/-- The function `strings.HasSuffix`:
`len(s) >= len(suffix) && s[len(s)-len(suffix):] == suffix`. -/
def HasSuffix (s suffix : GoString) : Bool :=
  decide (s.length ≥ suffix.length) && (s.drop (s.length - suffix.length) == suffix)

/-- The function `strings.TrimSuffix`: `s` without the trailing `suffix`, if it has it. -/
def TrimSuffix (s suffix : GoString) : GoString :=
  if HasSuffix s suffix then s.take (s.length - suffix.length) else s

/-- The function `strings.HasPrefix`:
`len(s) >= len(prefix) && s[:len(prefix)] == prefix`. -/
def HasPrefix (s pre : GoString) : Bool :=
  decide (s.length ≥ pre.length) && (s.take pre.length == pre)

/-- The function `strings.Index` for a non-empty `substr`: the position of the first
occurrence of `substr` in `s`, `none` (Go: `-1`) when there is none. -/
def Index (s substr : GoString) : Option Nat :=
  if substr.isPrefixOf s then some 0
  else
    match s with
    | [] => none
    | _ :: rest => (Index rest substr).map (· + 1)

/-- The loop of `strings.Split` (`genSplit` with a non-empty separator): while `sep`
occurs in `s`, the part before its first occurrence is one field and the loop goes on
after the occurrence; what remains is the last field. Every round shortens `s`, so
`len(s)` rounds are enough; `fuel` counts them. -/
def splitLoop (sep : GoString) : Nat → GoString → List GoString
  | 0, s => [s]
  | fuel + 1, s =>
    match Index s sep with
    | none => [s]
    | some m => s.take m :: splitLoop sep fuel (s.drop (m + sep.length))

/-- The function `strings.Split`: the substrings of `s` between the occurrences of
`sep`; with the empty separator, the characters of `s` one by one. -/
def Split (s sep : GoString) : List GoString :=
  if sep = [] then s.map (fun c => [c]) else splitLoop sep s.length s

/-- The function `unicode.IsSpace`: the white-space characters of Unicode. -/
def isSpace (c : Char) : Bool :=
  c = '\t' || c = '\n' || c.toNat = 0x0B || c.toNat = 0x0C || c = '\r' || c = ' ' ||
  c.toNat = 0x85 || c.toNat = 0xA0 || c.toNat = 0x1680 ||
  (decide (0x2000 ≤ c.toNat) && decide (c.toNat ≤ 0x200A)) ||
  c.toNat = 0x2028 || c.toNat = 0x2029 || c.toNat = 0x202F || c.toNat = 0x205F ||
  c.toNat = 0x3000

/-- The function `strings.TrimSpace`: `s` without its leading and trailing white
space. -/
def TrimSpace (s : GoString) : GoString :=
  ((s.dropWhile isSpace).reverse.dropWhile isSpace).reverse

/-! ## Messages (package `dns`) -/

/-- One entry of the question section, `dns.Question`. -/
structure Question where
  Name : GoString
  Qtype : Nat
  Qclass : Nat
deriving DecidableEq

/-- A DNS message, `dns.Msg` (the header `dns.MsgHdr` is embedded in it). The type
`RR` of resource records is that of the `dns.RR` interface values. -/
structure Msg (RR : Type) where
  Id : Nat
  Response : Bool
  Opcode : Int
  Authoritative : Bool
  Truncated : Bool
  RecursionDesired : Bool
  RecursionAvailable : Bool
  Zero : Bool
  AuthenticatedData : Bool
  CheckingDisabled : Bool
  Rcode : Int
  Compress : Bool
  Question : List Question
  Answer : List RR
  Ns : List RR
  Extra : List RR
deriving DecidableEq

/-- The constant `dns.OpcodeQuery`. -/
def OpcodeQuery : Int := 0

/-- The constant `dns.RcodeSuccess`. -/
def RcodeSuccess : Int := 0

/-- The constant `dns.RcodeServerFailure`. -/
def RcodeServerFailure : Int := 2

/-- The message `new(dns.Msg)`: every field has its zero value. -/
def Msg.new {RR : Type} : Msg RR where
  Id := 0
  Response := false
  Opcode := 0
  Authoritative := false
  Truncated := false
  RecursionDesired := false
  RecursionAvailable := false
  Zero := false
  AuthenticatedData := false
  CheckingDisabled := false
  Rcode := 0
  Compress := false
  Question := []
  Answer := []
  Ns := []
  Extra := []

/-- The method `(*dns.Msg).SetReply`: the receiver becomes a reply to `request`. It takes
the identifier and the opcode of the request, sets the response bit, copies the
recursion-desired and checking-disabled bits of a standard query, sets the success
code, and takes the first question of the request when there is one. -/
def Msg.SetReply {RR : Type} (dns request : Msg RR) : Msg RR :=
  let dns := { dns with Id := request.Id, Response := true, Opcode := request.Opcode }
  let dns :=
    if dns.Opcode = OpcodeQuery then
      { dns with
        RecursionDesired := request.RecursionDesired
        CheckingDisabled := request.CheckingDisabled }
    else dns
  let dns := { dns with Rcode := RcodeSuccess }
  match request.Question with
  | [] => dns
  | q :: _ => { dns with Question := [q] }

/-- The method `(*dns.Msg).SetRcode`: `SetReply` followed by the assignment of `rcode`. -/
def Msg.SetRcode {RR : Type} (dns request : Msg RR) (rcode : Int) : Msg RR :=
  { dns.SetReply request with Rcode := rcode }

/-! ## The proxy -/

/-- The listening server, `dns.Server`, as far as `NewDNSProxy` fills it. -/
structure Server where
  Addr : GoString
  Net : GoString
deriving DecidableEq

/-- The type `DNSProxy`. The map `domainMappings` is the list of its entries in the
order in which `range` visits them. -/
structure DNSProxy where
  server : Server
  dnsServers : List GoString
  domainMappings : List (GoString × GoString)
deriving DecidableEq

/-- The constructor `NewDNSProxy`. -/
def NewDNSProxy (addr : GoString) (dnsServers : List GoString)
    (domainMappings : List (GoString × GoString)) : DNSProxy where
  server := { Addr := addr, Net := "udp".toList }
  dnsServers := dnsServers
  domainMappings := domainMappings

/-- What `handleDNS` reads of its `dns.ResponseWriter`; the messages passed to
`WriteMsg` are collected in the `Run`. -/
structure ResponseWriter where
  RemoteAddr : GoString
deriving DecidableEq

/-- The calls of `log.Printf` in `handleDNS`, one constructor per format string, with
the arguments of the call. -/
inductive LogLine (E : Type) where
  /-- Line 31: `Received DNS query for %s from %s`. -/
  | received (queryName remoteAddr : GoString)
  /-- Line 39: `MAPPED DOMAIN: %s -> %s`. -/
  | mappedDomain (queryName ip : GoString)
  /-- Line 46: `Error creating RR: %v`. -/
  | errorCreatingRR (err : E)
  /-- Line 66: `DNS SERVER %d FAILED (%s): %v, trying next`. -/
  | serverFailed (n : Nat) (server : GoString) (err : E)
  /-- Line 69: `RESOLVED BY SERVER %d: %s -> %s`. -/
  | resolvedBy (n : Nat) (queryName server : GoString)
  /-- Line 75: `ALL DNS SERVERS FAILED. Last error: %v`. -/
  | allFailed (lastErr : Option E)
deriving DecidableEq

/-- The effects of one call of `handleDNS`, each list in the order of the calls.
`panicked` is set when the call stops on a run-time panic; `exchanged` holds the
address of every `client.Exchange`, `written` the message of every `w.WriteMsg`,
`net` the state of the network after the call. -/
structure Run (RR E σ : Type) where
  panicked : Bool
  logs : List (LogLine E)
  exchanged : List GoString
  written : List (Msg RR)
  net : σ

section Handler

variable {RR E σ : Type}

/-- The loop `for suffix, ip := range p.domainMappings` (lines 35-55) over the entries
still to visit. `none`: the loop ends without a match and control reaches line 57.
`some (logs, m)`: an entry matched; the body logged `logs`, called `w.WriteMsg m`
once and returned. -/
def rangeDomainMappings (NewRR : GoString → Except E RR) (r : Msg RR)
    (queryName queryNameLower : GoString) :
    List (GoString × GoString) → Option (List (LogLine E) × Msg RR)
  | [] => none
  | (suffix, ip) :: rest =>
    let queryNameWithoutDot := TrimSuffix queryNameLower ['.']
    if HasSuffix queryNameWithoutDot (TrimSuffix suffix ['.']) then
      let m : Msg RR := Msg.new.SetReply r
      match NewRR (queryName ++ " 60 IN A ".toList ++ ip) with
      | .error err =>
        some ([.mappedDomain queryName ip, .errorCreatingRR err],
          m.SetRcode r RcodeServerFailure)
      | .ok rr =>
        some ([.mappedDomain queryName ip], { m with Answer := m.Answer ++ [rr] })
    else
      rangeDomainMappings NewRR r queryName queryNameLower rest

/-- The loop `for i, server := range p.dnsServers` (lines 62-72) followed by lines
74-79, from network state `net`, loop index `i` and the current value of `lastErr`,
over the servers still to try. -/
def rangeDnsServers (Exchange : σ → Msg RR → GoString → Except E (Msg RR) × σ)
    (r : Msg RR) (queryName : GoString) :
    σ → Nat → Option E → List GoString → Run RR E σ
  | net, _, lastErr, [] =>
    let m : Msg RR := (Msg.new.SetReply r).SetRcode r RcodeServerFailure
    { panicked := false
      logs := [.allFailed lastErr]
      exchanged := []
      written := [m]
      net := net }
  | net, i, _, server :: rest =>
    match Exchange net r (server ++ ":53".toList) with
    | (.error err, net1) =>
      let run := rangeDnsServers Exchange r queryName net1 (i + 1) (some err) rest
      { run with
        logs := .serverFailed (i + 1) server err :: run.logs
        exchanged := (server ++ ":53".toList) :: run.exchanged }
    | (.ok resp, net1) =>
      { panicked := false
        logs := [.resolvedBy (i + 1) queryName server]
        exchanged := [server ++ ":53".toList]
        written := [resp]
        net := net1 }

/-- The method `(*DNSProxy).handleDNS` (lines 28-80). `r.Question[0]` on an empty
question section is an index out of range: the call panics before any effect. -/
def handleDNS (NewRR : GoString → Except E RR)
    (Exchange : σ → Msg RR → GoString → Except E (Msg RR) × σ)
    (p : DNSProxy) (w : ResponseWriter) (net : σ) (r : Msg RR) : Run RR E σ :=
  match r.Question with
  | [] => { panicked := true, logs := [], exchanged := [], written := [], net := net }
  | q0 :: _ =>
    let queryName := q0.Name
    let queryNameLower := ToLower queryName
    match rangeDomainMappings NewRR r queryName queryNameLower p.domainMappings with
    | some (logs, m) =>
      { panicked := false
        logs := .received queryName w.RemoteAddr :: logs
        exchanged := []
        written := [m]
        net := net }
    | none =>
      let run := rangeDnsServers Exchange r queryName net 0 none p.dnsServers
      { run with logs := .received queryName w.RemoteAddr :: run.logs }

end Handler

/-! ## The configuration built by `main` -/

/-- The statement `m[k] = v` on a map of strings. A map is the list of its entries,
with one entry per key: the entry of an existing key gets the new value, a new key
gets a new entry. (The order of the list is not the order of `range`, which is
unspecified.) -/
def mapAssign (m : List (GoString × GoString)) (k v : GoString) : List (GoString × GoString) :=
  match m with
  | [] => [(k, v)]
  | (k1, v1) :: rest => if k1 = k then (k, v) :: rest else (k1, v1) :: mapAssign rest k v

/-- The servers parsed by `main` (lines 107-110) from the value of the flag `-servers`:
the fields between the commas, each replaced in place by its trimmed form. -/
def mainServers (dnsServers : GoString) : List GoString :=
  let servers := Split dnsServers [',']
  (List.range servers.length).foldl
    (fun servers i => servers.set i (TrimSpace (servers.getD i []))) servers

/-- The body of the loop of lines 115-126 for one entry `mapping` of the flag
`-domains`, on the map built so far. -/
def loadMapping (mappings : List (GoString × GoString)) (mapping : GoString) :
    List (GoString × GoString) :=
  let parts := Split mapping ['=']
  match parts with
  | [p0, p1] =>
    let domain := p0
    let ip := p1
    let domain := if !HasPrefix domain ['.'] then ['.'] ++ domain else domain
    mapAssign mappings domain ip
  | _ => mappings

/-- The map built by `main` (lines 113-127) from the value of the flag `-domains`. -/
def mainMappings (domainMappings : GoString) : List (GoString × GoString) :=
  if domainMappings ≠ [] then
    (Split domainMappings [',']).foldl loadMapping []
  else []

/-- The default value of the flag `-listen`. -/
def defaultListen : GoString := ":53".toList

/-- The default value of the flag `-servers`. -/
def defaultServers : GoString := "8.8.8.8,1.1.1.1".toList

/-- The default value of the flag `-domains`. -/
def defaultDomains : GoString := []

/-- The proxy created by `main` (lines 130-134) from the values of the three flags. The
table handed to the handler is the map in one of its iteration orders. -/
def mainProxy (listenAddr dnsServers domainMappings : GoString) : DNSProxy :=
  NewDNSProxy listenAddr (mainServers dnsServers) (mainMappings domainMappings)

section Serving

variable {RR E σ : Type}

/-- The handler called on the queries of a list, one after the other, on the proxy `p`
and from the network state `net`: the proxy after the calls and the runs. `handleDNS`
assigns to no field of its receiver, so the proxy goes unchanged from one call to the
next; a call that panics ends the process, and the queries after it are not
handled. -/
def serve (NewRR : GoString → Except E RR)
    (Exchange : σ → Msg RR → GoString → Except E (Msg RR) × σ) :
    DNSProxy → σ → List (ResponseWriter × Msg RR) → DNSProxy × List (Run RR E σ)
  | p, _, [] => (p, [])
  | p, net, (w, r) :: rest =>
    let run := handleDNS NewRR Exchange p w net r
    if run.panicked then (p, [run])
    else
      let next := serve NewRR Exchange p run.net rest
      (next.1, run :: next.2)

/-- The state of the network after the handler was called on the queries of a list. -/
def netAfter (NewRR : GoString → Except E RR)
    (Exchange : σ → Msg RR → GoString → Except E (Msg RR) × σ) (p : DNSProxy) :
    σ → List (ResponseWriter × Msg RR) → σ
  | net, [] => net
  | net, (w, r) :: rest =>
    netAfter NewRR Exchange p (handleDNS NewRR Exchange p w net r).net rest

end Serving

/-- The entry that `loadMapping` stores for `mapping`, when it stores one, in the words
of the claims: with exactly one `=` in `mapping`, the part before it, with a leading
dot added when it has none, bound to the part after it. -/
def storedPair (mapping : GoString) : Option (GoString × GoString) :=
  if mapping.count '=' = 1 then
    let d := mapping.takeWhile (fun c => c != '=')
    let ip := (mapping.dropWhile (fun c => c != '=')).drop 1
    some (if d.head? = some '.' then d else '.' :: d, ip)
  else none

/-- The entries that the loop of lines 115-126 stores for the value of the flag
`-domains`, in the order of the flag. -/
def storedPairs (domainMappings : GoString) : List (GoString × GoString) :=
  (Split domainMappings [',']).filterMap storedPair

/-! ## Reading a run -/

section Reading

variable {RR E σ : Type}

/-- The condition of line 38 for the name of a query and one configured suffix: the
name is lower-cased (line 34) and loses one trailing dot (line 37), the suffix
loses one trailing dot. -/
def suffixHit (queryName suffix : GoString) : Bool :=
  HasSuffix (TrimSuffix (ToLower queryName) ['.']) (TrimSuffix suffix ['.'])

/-- The first entry, in the order of the loop, whose suffix satisfies line 38. -/
def firstMatch (table : List (GoString × GoString)) (queryName : GoString) :
    Option (GoString × GoString) :=
  table.find? (fun e => suffixHit queryName e.1)

/-- The text handed to `dns.NewRR` on line 44. -/
def recordText (queryName ip : GoString) : GoString :=
  queryName ++ " 60 IN A ".toList ++ ip

/-- What the body of the `if` of line 38 logs and writes for the target `ip`
(lines 39-53). -/
def overrideBody (NewRR : GoString → Except E RR) (r : Msg RR) (queryName ip : GoString) :
    List (LogLine E) × Msg RR :=
  match NewRR (recordText queryName ip) with
  | .error err =>
    ([.mappedDomain queryName ip, .errorCreatingRR err],
      (Msg.new.SetReply r).SetRcode r RcodeServerFailure)
  | .ok rr =>
    ([.mappedDomain queryName ip],
      { (Msg.new.SetReply r : Msg RR) with Answer := (Msg.new.SetReply r : Msg RR).Answer ++ [rr] })

/-- The address handed to `client.Exchange` on line 63. -/
def upstreamAddr (server : GoString) : GoString :=
  server ++ ":53".toList

/-- Whether the line is the `MAPPED DOMAIN` line. -/
def LogLine.isMapped : LogLine E → Bool
  | .mappedDomain _ _ => true
  | _ => false

/-- Whether the line is the `RESOLVED BY SERVER` line. -/
def LogLine.isResolved : LogLine E → Bool
  | .resolvedBy _ _ _ => true
  | _ => false

/-- Whether the line is the `ALL DNS SERVERS FAILED` line. -/
def LogLine.isAllFailed : LogLine E → Bool
  | .allFailed _ => true
  | _ => false

/-- Outcome "override match": the body of the `if` of line 38 ran. -/
def Run.overrideMatch (run : Run RR E σ) : Bool :=
  run.logs.any LogLine.isMapped

/-- Outcome "upstream success": line 69 ran. -/
def Run.upstreamSuccess (run : Run RR E σ) : Bool :=
  run.logs.any LogLine.isResolved

/-- Outcome "all upstreams failed": line 75 ran. -/
def Run.allUpstreamsFailed (run : Run RR E σ) : Bool :=
  run.logs.any LogLine.isAllFailed

/-- The forwarding branch: control went past the override loop to lines 57-79, which
end on line 69 or on line 75. -/
def Run.forwarded (run : Run RR E σ) : Bool :=
  run.upstreamSuccess || run.allUpstreamsFailed

/-- The state of the network after one exchange with each of `servers` in turn, when
every one of these exchanges returns an error; `none` when one of them returns a
message. -/
def failsThrough (Exchange : σ → Msg RR → GoString → Except E (Msg RR) × σ) (r : Msg RR) :
    σ → List GoString → Option σ
  | net, [] => some net
  | net, server :: rest =>
    match Exchange net r (upstreamAddr server) with
    | (.error _, net1) => failsThrough Exchange r net1 rest
    | (.ok _, _) => none

/-- A string without one trailing dot, in the words of the specification. -/
def stripTrailingDot (s : GoString) : GoString :=
  if s.getLast? = some '.' then s.dropLast else s

/-- The override test in the words of the specification: some configured suffix,
without its trailing dot, is a suffix of the lower-cased query name without its
trailing dot. -/
def SpecOverride (table : List (GoString × GoString)) (queryName : GoString) : Prop :=
  ∃ e ∈ table, stripTrailingDot e.1 <:+ stripTrailingDot (ToLower queryName)

end Reading

/-! ## A concrete library, for evaluating the handler on given inputs -/

namespace Sim

/-- An address record: the header of `dns.RR_Header` and the four octets of the
address. -/
structure ARecord where
  Name : GoString
  Rrtype : Nat
  Class : Nat
  Ttl : Nat
  A : List Nat
deriving DecidableEq

/-- The constant `dns.TypeA`. -/
def TypeA : Nat := 1

/-- The constant `dns.ClassINET`. -/
def ClassINET : Nat := 1

/-- The fields of `s` between the occurrences of `sep`. -/
def fields (sep : Char) : GoString → List GoString
  | [] => [[]]
  | c :: cs =>
    if c = sep then [] :: fields sep cs
    else
      match fields sep cs with
      | [] => [[c]]
      | f :: fs => (c :: f) :: fs

/-- The value of a string of decimal digits, read after the digits `acc`. -/
def digitsFrom (acc : Nat) : GoString → Option Nat
  | [] => some acc
  | c :: cs => if c.isDigit then digitsFrom (acc * 10 + (c.toNat - 48)) cs else none

/-- The value of a non-empty string of decimal digits. -/
def number (s : GoString) : Option Nat :=
  if s = [] then none else digitsFrom 0 s

/-- One octet of a dotted quad: decimal, at most 255, no leading zero. -/
def octet (s : GoString) : Option Nat :=
  match s with
  | '0' :: _ :: _ => none
  | _ =>
    match number s with
    | some n => if n ≤ 255 then some n else none
    | none => none

/-- The four octets of a dotted-quad IPv4 address. -/
def parseIPv4 (s : GoString) : Option (List Nat) :=
  match (fields '.' s).map octet with
  | [some a, some b, some c, some d] => some [a, b, c, d]
  | _ => none

/-- A stand-in for `dns.NewRR` on the lines `handleDNS` builds: it accepts the lines of
five fields separated by single blanks, `owner ttl IN A address` with a decimal ttl
and a dotted-quad address, and rejects every other line with an error text. -/
def NewRR (s : GoString) : Except GoString ARecord :=
  match fields ' ' s with
  | [owner, ttl, cls, typ, addr] =>
    if cls = "IN".toList ∧ typ = "A".toList then
      match number ttl, parseIPv4 addr with
      | some t, some ip =>
        .ok { Name := owner, Rrtype := TypeA, Class := ClassINET, Ttl := t, A := ip }
      | _, none => .error "bad A A".toList
      | none, _ => .error "not a TTL".toList
    else .error "unexpected class or type".toList
  | _ => .error "syntax error".toList

/-- A scripted network: its state is the list of the results of the exchanges still
to come; an exchange takes the first of them, and times out when none is left. -/
def Exchange (net : List (Except GoString (Msg ARecord))) (_r : Msg ARecord) (_addr : GoString) :
    Except GoString (Msg ARecord) × List (Except GoString (Msg ARecord)) :=
  match net with
  | [] => (.error "i/o timeout".toList, [])
  | x :: rest => (x, rest)

/-- A query with one question, for the name `name`, type A, class IN. -/
def query (id : Nat) (name : GoString) : Msg ARecord :=
  { (Msg.new : Msg ARecord) with
    Id := id
    RecursionDesired := true
    Question := [{ Name := name, Qtype := TypeA, Qclass := ClassINET }] }

/-- A proxy listening on `:53` with the given upstreams and table. -/
def proxy (servers : List GoString) (table : List (GoString × GoString)) : DNSProxy :=
  NewDNSProxy ":53".toList servers table

/-- The writer of a query from `127.0.0.1:5353`. -/
def writer : ResponseWriter :=
  { RemoteAddr := "127.0.0.1:5353".toList }

/-- The transport error of an exchange that timed out. -/
def timeout : Except GoString (Msg ARecord) :=
  .error "i/o timeout".toList

/-- The reply of an upstream to `q` with status `rcode` and answer section `answer`. -/
def upstreamReply (q : Msg ARecord) (rcode : Int) (answer : List ARecord) : Msg ARecord :=
  { (Msg.new.SetReply q : Msg ARecord) with
    RecursionAvailable := true
    Rcode := rcode
    Answer := answer }

/-- The address record `name 300 IN A 93.184.216.34`. -/
def exampleRecord (name : GoString) : ARecord :=
  { Name := name, Rrtype := TypeA, Class := ClassINET, Ttl := 300, A := [93, 184, 216, 34] }

/-- The constant `dns.RcodeNameError` (NXDOMAIN). -/
def RcodeNameError : Int := 3

/-- The constant `dns.TypeAAAA`. -/
def TypeAAAA : Nat := 28

/-- A query with one question, for the name `name`, of type `qtype`, class IN. -/
def queryOfType (id : Nat) (name : GoString) (qtype : Nat) : Msg ARecord :=
  { (Msg.new : Msg ARecord) with
    Id := id
    RecursionDesired := true
    Question := [{ Name := name, Qtype := qtype, Qclass := ClassINET }] }

end Sim

/-! ## Lemmas on the string functions -/

section StringLemmas

theorem HasSuffix_iff (s t : GoString) : HasSuffix s t = true ↔ t <:+ s := by
  unfold HasSuffix
  rw [Bool.and_eq_true, decide_eq_true_eq, beq_iff_eq]
  constructor
  · rintro ⟨-, h⟩
    have hsplit := List.take_append_drop (s.length - t.length) s
    rw [h] at hsplit
    exact ⟨_, hsplit⟩
  · intro h
    exact ⟨h.length_le, (List.suffix_iff_eq_drop.mp h).symm⟩

theorem HasSuffix_dot_iff (s : GoString) : HasSuffix s ['.'] = true ↔ s.getLast? = some '.' := by
  rw [HasSuffix_iff]
  constructor
  · rintro ⟨u, rfl⟩
    simp
  · intro h
    obtain ⟨u, rfl⟩ : ∃ u, s = u ++ ['.'] := by
      rcases List.eq_nil_or_concat s with rfl | ⟨u, c, rfl⟩
      · simp at h
      · simp at h
        exact ⟨u, by rw [h, List.concat_eq_append]⟩
    exact List.suffix_append _ _

theorem TrimSuffix_dot (s : GoString) : TrimSuffix s ['.'] = stripTrailingDot s := by
  unfold TrimSuffix stripTrailingDot
  by_cases h : HasSuffix s ['.'] = true
  · rw [if_pos h, if_pos ((HasSuffix_dot_iff s).mp h), List.dropLast_eq_take]
    rfl
  · rw [if_neg h, if_neg (fun h1 => h ((HasSuffix_dot_iff s).mpr h1))]

theorem suffixHit_iff (queryName suffix : GoString) :
    suffixHit queryName suffix = true ↔
      stripTrailingDot suffix <:+ stripTrailingDot (ToLower queryName) := by
  unfold suffixHit
  rw [HasSuffix_iff, TrimSuffix_dot, TrimSuffix_dot]

theorem Index_cons_eq (c : Char) (rest : GoString) : Index (c :: rest) [c] = some 0 := by
  unfold Index
  simp [List.isPrefixOf]

theorem Index_cons_ne {c x : Char} (rest : GoString) (h : x ≠ c) :
    Index (x :: rest) [c] = (Index rest [c]).map (· + 1) := by
  rw [Index]
  have hne : (c == x) = false := by
    rw [beq_eq_false_iff_ne]
    exact fun hcx => h hcx.symm
  simp [List.isPrefixOf, hne]

theorem Index_nil (c : Char) : Index [] [c] = none := by
  unfold Index
  simp [List.isPrefixOf]

theorem fields_of_Index (c : Char) :
    ∀ s : GoString,
      (Index s [c] = none → Sim.fields c s = [s]) ∧
      (∀ m, Index s [c] = some m →
        m < s.length ∧ Sim.fields c s = s.take m :: Sim.fields c (s.drop (m + 1))) := by
  intro s
  induction s with
  | nil =>
    refine ⟨fun _ => rfl, ?_⟩
    intro m hm
    rw [Index_nil] at hm
    exact absurd hm (by simp)
  | cons x rest ih =>
    by_cases hx : x = c
    · subst hx
      rw [Index_cons_eq]
      refine ⟨fun h => absurd h (by simp), ?_⟩
      intro m hm
      have hm0 : m = 0 := by
        simp only [Option.some.injEq] at hm
        exact hm.symm
      subst hm0
      refine ⟨Nat.succ_pos _, ?_⟩
      simp [Sim.fields]
    · rw [Index_cons_ne rest hx]
      constructor
      · intro h
        have hrest : Index rest [c] = none := by
          cases hi : Index rest [c] with
          | none => rfl
          | some k => rw [hi] at h; simp at h
        rw [Sim.fields, if_neg hx, ih.1 hrest]
      · intro m hm
        cases hi : Index rest [c] with
        | none => rw [hi] at hm; simp at hm
        | some k =>
          rw [hi] at hm
          simp only [Option.map_some', Option.some.injEq] at hm
          subst hm
          obtain ⟨hk, hf⟩ := ih.2 k hi
          refine ⟨Nat.succ_lt_succ hk, ?_⟩
          rw [Sim.fields, if_neg hx, hf]
          rfl

theorem splitLoop_single (c : Char) :
    ∀ (fuel : Nat) (s : GoString), s.length ≤ fuel → splitLoop [c] fuel s = Sim.fields c s := by
  intro fuel
  induction fuel with
  | zero =>
    intro s hs
    have hnil : s = [] := List.eq_nil_of_length_eq_zero (Nat.le_zero.mp hs)
    subst hnil
    rfl
  | succ fuel ih =>
    intro s hs
    rw [splitLoop]
    cases hi : Index s [c] with
    | none => exact ((fields_of_Index c s).1 hi).symm
    | some m =>
      obtain ⟨hm, hf⟩ := (fields_of_Index c s).2 m hi
      have hlen : (s.drop (m + 1)).length ≤ fuel := by
        rw [List.length_drop]
        omega
      simp only [List.length_singleton]
      rw [ih (s.drop (m + 1)) hlen, hf]

theorem Split_single (s : GoString) (c : Char) : Split s [c] = Sim.fields c s := by
  unfold Split
  rw [if_neg (by simp)]
  exact splitLoop_single c s.length s (le_refl _)

theorem fields_ne_nil (c : Char) (s : GoString) : Sim.fields c s ≠ [] := by
  cases s with
  | nil => simp [Sim.fields]
  | cons x rest =>
    rw [Sim.fields]
    split
    · simp
    · split <;> simp

theorem fields_length (c : Char) (s : GoString) :
    (Sim.fields c s).length = s.count c + 1 := by
  induction s with
  | nil => rfl
  | cons x rest ih =>
    rw [Sim.fields]
    by_cases hx : x = c
    · subst hx
      rw [if_pos rfl, List.length_cons, ih, List.count_cons_self]
    · rw [if_neg hx, List.count_cons_of_ne (Ne.symm hx)]
      cases hf : Sim.fields c rest with
      | nil => exact absurd hf (fields_ne_nil c rest)
      | cons f fs =>
        rw [hf] at ih
        simpa using ih

theorem fields_count_zero (c : Char) (s : GoString) (h : s.count c = 0) :
    Sim.fields c s = [s] := by
  induction s with
  | nil => rfl
  | cons x rest ih =>
    have hx : x ≠ c := by
      intro hxc
      subst hxc
      rw [List.count_cons_self] at h
      exact absurd h (Nat.succ_ne_zero _)
    rw [List.count_cons_of_ne (Ne.symm hx)] at h
    rw [Sim.fields, if_neg hx, ih h]

theorem fields_count_one (c : Char) (s : GoString) (h : s.count c = 1) :
    Sim.fields c s =
      [s.takeWhile (fun x => x != c), (s.dropWhile (fun x => x != c)).drop 1] := by
  induction s with
  | nil => simp at h
  | cons x rest ih =>
    by_cases hx : x = c
    · subst hx
      rw [List.count_cons_self] at h
      have h0 : rest.count x = 0 := by omega
      rw [Sim.fields, if_pos rfl, fields_count_zero x rest h0]
      simp [List.takeWhile, List.dropWhile]
    · rw [List.count_cons_of_ne (Ne.symm hx)] at h
      have hb : (x != c) = true := by
        rw [bne_iff_ne]
        exact hx
      rw [Sim.fields, if_neg hx, ih h]
      simp [List.takeWhile, List.dropWhile, hb]

end StringLemmas

/-! ## Lemmas on the configuration -/

section ConfigLemmas

theorem foldl_set_getElem? {α : Type} (f : α → α) (d : α) (l : List α) :
    ∀ (n i : Nat),
      ((List.range n).foldl (fun acc k => acc.set k (f (acc.getD k d))) l)[i]? =
        if i < n then (l[i]?).map f else l[i]? := by
  intro n
  induction n with
  | zero =>
    intro i
    simp
  | succ n ih =>
    intro i
    rw [List.range_succ, List.foldl_append, List.foldl_cons, List.foldl_nil, List.getElem?_set]
    have hn := ih n
    rw [if_neg (Nat.lt_irrefl _)] at hn
    by_cases hni : n = i
    · subst hni
      rw [if_pos rfl, if_pos (Nat.lt_succ_self _), List.getD_eq_getElem?_getD, hn]
      by_cases hlen : n < l.length
      · have hlen2 : n < ((List.range n).foldl
            (fun acc k => acc.set k (f (acc.getD k d))) l).length := by
          by_contra hcon
          rw [List.getElem?_eq_none (Nat.le_of_not_lt hcon), List.getElem?_eq_getElem hlen] at hn
          exact absurd hn (by simp)
        rw [if_pos hlen2, List.getElem?_eq_getElem hlen]
        rfl
      · have hnone : l[n]? = none := List.getElem?_eq_none (Nat.le_of_not_lt hlen)
        have hlen2 : ¬ n < ((List.range n).foldl
            (fun acc k => acc.set k (f (acc.getD k d))) l).length := by
          intro hcon
          have h2 := List.getElem?_eq_getElem hcon
          rw [hn, hnone] at h2
          exact absurd h2 (by simp)
        rw [if_neg hlen2, hnone]
        rfl
    · rw [if_neg hni, ih i]
      by_cases hin : i < n
      · rw [if_pos hin, if_pos (Nat.lt_succ_of_lt hin)]
      · have hin2 : ¬ i < n + 1 := by omega
        rw [if_neg hin, if_neg hin2]

theorem foldl_set_eq_map {α : Type} (f : α → α) (d : α) (l : List α) :
    (List.range l.length).foldl (fun acc k => acc.set k (f (acc.getD k d))) l = l.map f := by
  apply List.ext_getElem?
  intro i
  rw [foldl_set_getElem? f d l l.length i, List.getElem?_map]
  by_cases hi : i < l.length
  · rw [if_pos hi]
  · rw [if_neg hi, List.getElem?_eq_none (Nat.le_of_not_lt hi)]
    rfl

theorem mainServers_eq_map (dnsServers : GoString) :
    mainServers dnsServers = (Split dnsServers [',']).map TrimSpace :=
  foldl_set_eq_map TrimSpace [] (Split dnsServers [','])

theorem HasPrefix_dot_iff (d : GoString) : HasPrefix d ['.'] = true ↔ d.head? = some '.' := by
  cases d with
  | nil => simp [HasPrefix]
  | cons x rest => simp [HasPrefix]

theorem lookup_mapAssign_self (m : List (GoString × GoString)) (k v : GoString) :
    (mapAssign m k v).lookup k = some v := by
  induction m with
  | nil => simp [mapAssign, List.lookup]
  | cons e rest ih =>
    obtain ⟨k1, v1⟩ := e
    rw [mapAssign]
    by_cases h : k1 = k
    · rw [if_pos h]
      simp [List.lookup]
    · rw [if_neg h, List.lookup_cons]
      have hne : (k == k1) = false := by
        rw [beq_eq_false_iff_ne]
        exact fun hk => h hk.symm
      rw [hne]
      exact ih

theorem lookup_mapAssign_ne (m : List (GoString × GoString)) {k k2 : GoString} (v : GoString)
    (hk : k2 ≠ k) : (mapAssign m k v).lookup k2 = m.lookup k2 := by
  induction m with
  | nil =>
    have hne : (k2 == k) = false := by
      rw [beq_eq_false_iff_ne]
      exact hk
    simp [mapAssign, List.lookup, hne]
  | cons e rest ih =>
    obtain ⟨k1, v1⟩ := e
    rw [mapAssign]
    by_cases h : k1 = k
    · subst h
      have hne : (k2 == k1) = false := by
        rw [beq_eq_false_iff_ne]
        exact hk
      rw [if_pos rfl, List.lookup_cons, List.lookup_cons, hne]
    · rw [if_neg h, List.lookup_cons, List.lookup_cons, ih]

theorem mem_mapAssign (m : List (GoString × GoString)) (k v : GoString)
    (e : GoString × GoString) (he : e ∈ mapAssign m k v) : e = (k, v) ∨ e ∈ m := by
  induction m with
  | nil =>
    simp only [mapAssign, List.mem_singleton] at he
    exact Or.inl he
  | cons e1 rest ih =>
    obtain ⟨k1, v1⟩ := e1
    rw [mapAssign] at he
    by_cases h : k1 = k
    · rw [if_pos h, List.mem_cons] at he
      rcases he with he | he
      · exact Or.inl he
      · exact Or.inr (List.mem_cons_of_mem _ he)
    · rw [if_neg h, List.mem_cons] at he
      rcases he with he | he
      · exact Or.inr (by rw [he]; exact List.mem_cons_self _ _)
      · rcases ih he with h1 | h1
        · exact Or.inl h1
        · exact Or.inr (List.mem_cons_of_mem _ h1)

theorem keys_mapAssign_subset (m : List (GoString × GoString)) (k v k2 : GoString)
    (hk : k2 ∈ (mapAssign m k v).map Prod.fst) : k2 = k ∨ k2 ∈ m.map Prod.fst := by
  obtain ⟨e, he, rfl⟩ := List.mem_map.mp hk
  rcases mem_mapAssign m k v e he with h | h
  · exact Or.inl (by rw [h])
  · exact Or.inr (List.mem_map_of_mem _ h)

theorem nodup_keys_mapAssign (m : List (GoString × GoString)) (k v : GoString)
    (h : (m.map Prod.fst).Nodup) : ((mapAssign m k v).map Prod.fst).Nodup := by
  induction m with
  | nil => simp [mapAssign]
  | cons e rest ih =>
    obtain ⟨k1, v1⟩ := e
    rw [List.map_cons, List.nodup_cons] at h
    rw [mapAssign]
    by_cases hk : k1 = k
    · subst hk
      rw [if_pos rfl, List.map_cons, List.nodup_cons]
      exact h
    · rw [if_neg hk, List.map_cons, List.nodup_cons]
      refine ⟨?_, ih h.2⟩
      intro hmem
      rcases keys_mapAssign_subset rest k v k1 hmem with h1 | h1
      · exact hk h1
      · exact h.1 h1

theorem loadMapping_eq (m : List (GoString × GoString)) (mapping : GoString) :
    loadMapping m mapping =
      match storedPair mapping with
      | some (k, v) => mapAssign m k v
      | none => m := by
  unfold loadMapping storedPair
  rw [Split_single]
  by_cases h1 : mapping.count '=' = 1
  · rw [if_pos h1, fields_count_one '=' mapping h1]
    simp only []
    by_cases hd : HasPrefix (mapping.takeWhile (fun x => x != '=')) ['.'] = true
    · rw [if_pos ((HasPrefix_dot_iff _).mp hd)]
      simp [hd]
    · rw [if_neg (fun h => hd ((HasPrefix_dot_iff _).mpr h))]
      simp [hd]
  · rw [if_neg h1]
    have hlen : (Sim.fields '=' mapping).length ≠ 2 := by
      rw [fields_length]
      omega
    rcases hf : Sim.fields '=' mapping with _ | ⟨a, _ | ⟨b, _ | ⟨c, rest⟩⟩⟩
    · rfl
    · rfl
    · rw [hf] at hlen
      exact absurd rfl hlen
    · rfl

theorem foldl_loadMapping (entries : List GoString) :
    ∀ m : List (GoString × GoString),
      entries.foldl loadMapping m =
        (entries.filterMap storedPair).foldl (fun acc e => mapAssign acc e.1 e.2) m := by
  induction entries with
  | nil => intro m; rfl
  | cons x rest ih =>
    intro m
    rw [List.foldl_cons, ih, loadMapping_eq]
    cases hx : storedPair x with
    | none => simp [List.filterMap_cons, hx]
    | some e => simp [List.filterMap_cons, hx]

theorem mainMappings_eq (domainMappings : GoString) :
    mainMappings domainMappings =
      (storedPairs domainMappings).foldl (fun acc e => mapAssign acc e.1 e.2) [] := by
  unfold mainMappings storedPairs
  by_cases h : domainMappings = []
  · subst h
    rfl
  · rw [if_pos h, foldl_loadMapping]

theorem lookup_foldl_mapAssign (k : GoString) (pairs : List (GoString × GoString)) :
    ∀ m : List (GoString × GoString),
      (pairs.foldl (fun acc e => mapAssign acc e.1 e.2) m).lookup k =
        (pairs.reverse.lookup k).or (m.lookup k) := by
  induction pairs using List.reverseRecOn with
  | nil => intro m; rfl
  | append_singleton init e ih =>
    intro m
    obtain ⟨k1, v1⟩ := e
    rw [List.foldl_append, List.reverse_append]
    simp only [List.foldl_cons, List.foldl_nil, List.reverse_cons, List.reverse_nil,
      List.nil_append, List.singleton_append, List.lookup_cons]
    by_cases hk : k = k1
    · subst hk
      rw [lookup_mapAssign_self]
      simp
    · have hne : (k == k1) = false := by
        rw [beq_eq_false_iff_ne]
        exact hk
      rw [lookup_mapAssign_ne _ _ hk, hne, ih]

theorem mem_foldl_mapAssign (pairs : List (GoString × GoString)) :
    ∀ (m : List (GoString × GoString)) (e : GoString × GoString),
      e ∈ pairs.foldl (fun acc x => mapAssign acc x.1 x.2) m → e ∈ m ∨ e ∈ pairs := by
  induction pairs with
  | nil => intro m e he; exact Or.inl he
  | cons x rest ih =>
    intro m e he
    rw [List.foldl_cons] at he
    rcases ih _ e he with h | h
    · rcases mem_mapAssign m x.1 x.2 e h with h1 | h1
      · exact Or.inr (by rw [h1]; exact List.mem_cons_self _ _)
      · exact Or.inl h1
    · exact Or.inr (List.mem_cons_of_mem _ h)

theorem nodup_keys_foldl_mapAssign (pairs : List (GoString × GoString)) :
    ∀ m : List (GoString × GoString), (m.map Prod.fst).Nodup →
      ((pairs.foldl (fun acc x => mapAssign acc x.1 x.2) m).map Prod.fst).Nodup := by
  induction pairs with
  | nil => intro m h; exact h
  | cons x rest ih =>
    intro m h
    rw [List.foldl_cons]
    exact ih _ (nodup_keys_mapAssign m x.1 x.2 h)

theorem storedPair_key_dot {mapping : GoString} {e : GoString × GoString}
    (h : storedPair mapping = some e) : e.1.head? = some '.' := by
  unfold storedPair at h
  by_cases h1 : mapping.count '=' = 1
  · rw [if_pos h1] at h
    simp only [Option.some.injEq] at h
    rw [← h]
    by_cases hd : (mapping.takeWhile (fun c => c != '=')).head? = some '.'
    · rw [if_pos hd]
      exact hd
    · rw [if_neg hd]
      rfl
  · rw [if_neg h1] at h
    exact absurd h (by simp)

theorem storedPair_of_pair (d ip : GoString) (hd : d.count '=' = 0) (hip : ip.count '=' = 0) :
    storedPair (d ++ '=' :: ip) =
      some (if HasPrefix d ['.'] = true then d else ['.'] ++ d, ip) := by
  have hall : ∀ a ∈ d, (fun c : Char => c != '=') a = true := by
    intro a ha
    have hne : a ≠ '=' := by
      intro h
      rw [h] at ha
      exact (List.count_eq_zero.mp hd) ha
    simpa using hne
  have hcount : (d ++ '=' :: ip).count '=' = 1 := by
    rw [List.count_append, List.count_cons_self, hd, hip]
  unfold storedPair
  rw [if_pos hcount, List.takeWhile_append_of_pos hall, List.dropWhile_append_of_pos hall]
  simp only [List.takeWhile_cons, List.dropWhile_cons, bne_self_eq_false, Bool.false_eq_true,
    if_false, List.append_nil, List.drop_one, List.tail_cons]
  by_cases hp : HasPrefix d ['.'] = true
  · rw [if_pos hp, if_pos ((HasPrefix_dot_iff d).mp hp)]
  · rw [if_neg hp, if_neg (fun h => hp ((HasPrefix_dot_iff d).mpr h))]
    rfl

theorem mainMappings_keys_dot (domainMappings : GoString) :
    ∀ e ∈ mainMappings domainMappings, HasPrefix e.1 ['.'] = true := by
  intro e he
  rw [mainMappings_eq] at he
  rcases mem_foldl_mapAssign _ [] e he with h | h
  · exact absurd h (List.not_mem_nil _)
  · unfold storedPairs at h
    obtain ⟨mapping, -, hm⟩ := List.mem_filterMap.mp h
    exact (HasPrefix_dot_iff _).mpr (storedPair_key_dot hm)

theorem mainMappings_lookup (domainMappings k : GoString) :
    (mainMappings domainMappings).lookup k = (storedPairs domainMappings).reverse.lookup k := by
  rw [mainMappings_eq, lookup_foldl_mapAssign]
  simp

end ConfigLemmas

/-! ## Lemmas on the two loops -/

section LoopLemmas

variable {RR E σ : Type}

theorem rangeDomainMappings_eq (NewRR : GoString → Except E RR) (r : Msg RR)
    (queryName : GoString) (table : List (GoString × GoString)) :
    rangeDomainMappings NewRR r queryName (ToLower queryName) table =
      (firstMatch table queryName).map (fun e => overrideBody NewRR r queryName e.2) := by
  induction table with
  | nil => rfl
  | cons e rest ih =>
    obtain ⟨suffix, ip⟩ := e
    unfold rangeDomainMappings firstMatch
    by_cases h : suffixHit queryName suffix = true
    · have h1 : HasSuffix (TrimSuffix (ToLower queryName) ['.']) (TrimSuffix suffix ['.']) = true := h
      simp only [h1, if_true, List.find?_cons, h, Option.map_some', overrideBody, recordText]
      cases NewRR (queryName ++ " 60 IN A ".toList ++ ip) <;> rfl
    · have h1 : ¬ HasSuffix (TrimSuffix (ToLower queryName) ['.']) (TrimSuffix suffix ['.']) = true := h
      simp only [h1, if_false, List.find?_cons, h, ih]
      rfl

theorem firstMatch_eq_none {table : List (GoString × GoString)} {queryName : GoString} :
    firstMatch table queryName = none ↔ ∀ e ∈ table, suffixHit queryName e.1 = false := by
  unfold firstMatch
  rw [List.find?_eq_none]
  simp

theorem firstMatch_of_hit {table : List (GoString × GoString)} {queryName : GoString}
    (h : ∃ e ∈ table, suffixHit queryName e.1 = true) :
    ∃ e, firstMatch table queryName = some e ∧ e ∈ table ∧ suffixHit queryName e.1 = true := by
  cases hf : firstMatch table queryName with
  | none =>
    obtain ⟨e, he, hit⟩ := h
    rw [firstMatch_eq_none.mp hf e he] at hit
    exact absurd hit (by decide)
  | some e =>
    have hit : (fun x : GoString × GoString => suffixHit queryName x.1) e = true :=
      @List.find?_some _ (fun x : GoString × GoString => suffixHit queryName x.1) e table hf
    exact ⟨e, rfl, List.mem_of_find?_eq_some hf, hit⟩

theorem handleDNS_hit (NewRR : GoString → Except E RR)
    (Exchange : σ → Msg RR → GoString → Except E (Msg RR) × σ)
    (p : DNSProxy) (w : ResponseWriter) (net : σ) (r : Msg RR)
    {q0 : Question} {qs : List Question} {e : GoString × GoString}
    (hq : r.Question = q0 :: qs) (hf : firstMatch p.domainMappings q0.Name = some e) :
    handleDNS NewRR Exchange p w net r =
      { panicked := false
        logs := .received q0.Name w.RemoteAddr :: (overrideBody NewRR r q0.Name e.2).1
        exchanged := []
        written := [(overrideBody NewRR r q0.Name e.2).2]
        net := net } := by
  unfold handleDNS
  simp only [hq, rangeDomainMappings_eq, hf, Option.map_some']

theorem handleDNS_miss (NewRR : GoString → Except E RR)
    (Exchange : σ → Msg RR → GoString → Except E (Msg RR) × σ)
    (p : DNSProxy) (w : ResponseWriter) (net : σ) (r : Msg RR)
    {q0 : Question} {qs : List Question}
    (hq : r.Question = q0 :: qs) (hf : firstMatch p.domainMappings q0.Name = none) :
    handleDNS NewRR Exchange p w net r =
      { rangeDnsServers Exchange r q0.Name net 0 none p.dnsServers with
        logs := .received q0.Name w.RemoteAddr ::
          (rangeDnsServers Exchange r q0.Name net 0 none p.dnsServers).logs } := by
  unfold handleDNS
  simp only [hq, rangeDomainMappings_eq, hf, Option.map_none']

theorem rangeDnsServers_nil (Exchange : σ → Msg RR → GoString → Except E (Msg RR) × σ)
    (r : Msg RR) (queryName : GoString) (net : σ) (i : Nat) (lastErr : Option E) :
    rangeDnsServers Exchange r queryName net i lastErr [] =
      { panicked := false
        logs := [.allFailed lastErr]
        exchanged := []
        written := [(Msg.new.SetReply r).SetRcode r RcodeServerFailure]
        net := net } := by
  rw [rangeDnsServers]

theorem rangeDnsServers_cons_error (Exchange : σ → Msg RR → GoString → Except E (Msg RR) × σ)
    (r : Msg RR) (queryName : GoString) (net net1 : σ) (i : Nat) (lastErr : Option E)
    (server : GoString) (rest : List GoString) (err : E)
    (h : Exchange net r (upstreamAddr server) = (.error err, net1)) :
    rangeDnsServers Exchange r queryName net i lastErr (server :: rest) =
      { rangeDnsServers Exchange r queryName net1 (i + 1) (some err) rest with
        logs := .serverFailed (i + 1) server err ::
          (rangeDnsServers Exchange r queryName net1 (i + 1) (some err) rest).logs
        exchanged := upstreamAddr server ::
          (rangeDnsServers Exchange r queryName net1 (i + 1) (some err) rest).exchanged } := by
  have h1 : Exchange net r (server ++ ":53".toList) = (.error err, net1) := h
  rw [rangeDnsServers, h1]
  rfl

theorem rangeDnsServers_cons_ok (Exchange : σ → Msg RR → GoString → Except E (Msg RR) × σ)
    (r : Msg RR) (queryName : GoString) (net net1 : σ) (i : Nat) (lastErr : Option E)
    (server : GoString) (rest : List GoString) (resp : Msg RR)
    (h : Exchange net r (upstreamAddr server) = (.ok resp, net1)) :
    rangeDnsServers Exchange r queryName net i lastErr (server :: rest) =
      { panicked := false
        logs := [.resolvedBy (i + 1) queryName server]
        exchanged := [upstreamAddr server]
        written := [resp]
        net := net1 } := by
  have h1 : Exchange net r (server ++ ":53".toList) = (.ok resp, net1) := h
  rw [rangeDnsServers, h1]
  rfl

theorem failsThrough_cons_error (Exchange : σ → Msg RR → GoString → Except E (Msg RR) × σ)
    (r : Msg RR) (net net1 : σ) (server : GoString) (rest : List GoString) (err : E)
    (h : Exchange net r (upstreamAddr server) = (.error err, net1)) :
    failsThrough Exchange r net (server :: rest) = failsThrough Exchange r net1 rest := by
  rw [failsThrough, h]

theorem failsThrough_cons_ok (Exchange : σ → Msg RR → GoString → Except E (Msg RR) × σ)
    (r : Msg RR) (net net1 : σ) (server : GoString) (rest : List GoString) (resp : Msg RR)
    (h : Exchange net r (upstreamAddr server) = (.ok resp, net1)) :
    failsThrough Exchange r net (server :: rest) = none := by
  rw [failsThrough, h]

theorem rangeDnsServers_success (Exchange : σ → Msg RR → GoString → Except E (Msg RR) × σ)
    (r : Msg RR) (queryName u : GoString) (post : List GoString) (resp : Msg RR) (net1 net2 : σ)
    (hok : Exchange net1 r (upstreamAddr u) = (.ok resp, net2)) :
    ∀ (pre : List GoString) (net : σ) (i : Nat) (lastErr : Option E),
      failsThrough Exchange r net pre = some net1 →
      (rangeDnsServers Exchange r queryName net i lastErr (pre ++ u :: post)).written = [resp] ∧
      (rangeDnsServers Exchange r queryName net i lastErr (pre ++ u :: post)).exchanged =
        (pre ++ [u]).map upstreamAddr ∧
      (rangeDnsServers Exchange r queryName net i lastErr (pre ++ u :: post)).net = net2 := by
  intro pre
  induction pre with
  | nil =>
    intro net i lastErr hfail
    simp only [failsThrough, Option.some.injEq] at hfail
    subst hfail
    rw [List.nil_append, rangeDnsServers_cons_ok Exchange r queryName net net2 i lastErr u post resp hok]
    exact ⟨rfl, rfl, rfl⟩
  | cons s pre ih =>
    intro net i lastErr hfail
    cases hx : Exchange net r (upstreamAddr s) with
    | mk res net3 =>
      cases res with
      | error err =>
        rw [failsThrough_cons_error Exchange r net net3 s pre err hx] at hfail
        obtain ⟨h1, h2, h3⟩ := ih net3 (i + 1) (some err) hfail
        rw [List.cons_append,
          rangeDnsServers_cons_error Exchange r queryName net net3 i lastErr s _ err hx]
        refine ⟨h1, ?_, h3⟩
        show upstreamAddr s :: _ = _
        rw [h2]
        rfl
      | ok m =>
        rw [failsThrough_cons_ok Exchange r net net3 s pre m hx] at hfail
        exact absurd hfail (by simp)

theorem rangeDnsServers_allFailed (Exchange : σ → Msg RR → GoString → Except E (Msg RR) × σ)
    (r : Msg RR) (queryName : GoString) (net1 : σ) :
    ∀ (servers : List GoString) (net : σ) (i : Nat) (lastErr : Option E),
      failsThrough Exchange r net servers = some net1 →
      (rangeDnsServers Exchange r queryName net i lastErr servers).written =
        [(Msg.new.SetReply r).SetRcode r RcodeServerFailure] ∧
      (rangeDnsServers Exchange r queryName net i lastErr servers).exchanged =
        servers.map upstreamAddr ∧
      (rangeDnsServers Exchange r queryName net i lastErr servers).net = net1 := by
  intro servers
  induction servers with
  | nil =>
    intro net i lastErr hfail
    simp only [failsThrough, Option.some.injEq] at hfail
    subst hfail
    rw [rangeDnsServers_nil]
    exact ⟨rfl, rfl, rfl⟩
  | cons s rest ih =>
    intro net i lastErr hfail
    cases hx : Exchange net r (upstreamAddr s) with
    | mk res net3 =>
      cases res with
      | error err =>
        rw [failsThrough_cons_error Exchange r net net3 s rest err hx] at hfail
        obtain ⟨h1, h2, h3⟩ := ih net3 (i + 1) (some err) hfail
        rw [rangeDnsServers_cons_error Exchange r queryName net net3 i lastErr s _ err hx]
        refine ⟨h1, ?_, h3⟩
        show upstreamAddr s :: _ = _
        rw [h2]
        rfl
      | ok m =>
        rw [failsThrough_cons_ok Exchange r net net3 s rest m hx] at hfail
        exact absurd hfail (by simp)

theorem rangeDnsServers_cases (Exchange : σ → Msg RR → GoString → Except E (Msg RR) × σ)
    (r : Msg RR) :
    ∀ (servers : List GoString) (net : σ),
      (∃ net1, failsThrough Exchange r net servers = some net1) ∨
      (∃ pre u post net1 resp net2, servers = pre ++ u :: post ∧
        failsThrough Exchange r net pre = some net1 ∧
        Exchange net1 r (upstreamAddr u) = (.ok resp, net2)) := by
  intro servers
  induction servers with
  | nil =>
    intro net
    exact Or.inl ⟨net, rfl⟩
  | cons s rest ih =>
    intro net
    cases hx : Exchange net r (upstreamAddr s) with
    | mk res net3 =>
      cases res with
      | error err =>
        rcases ih net3 with ⟨net1, h⟩ | ⟨pre, u, post, net1, resp, net2, hs, hf, hok⟩
        · left
          exact ⟨net1, by rw [failsThrough_cons_error Exchange r net net3 s rest err hx, h]⟩
        · right
          refine ⟨s :: pre, u, post, net1, resp, net2, by rw [hs]; rfl, ?_, hok⟩
          rw [failsThrough_cons_error Exchange r net net3 s pre err hx, hf]
      | ok m =>
        right
        exact ⟨[], s, rest, net, m, net3, rfl, rfl, hx⟩

theorem rangeDnsServers_outcome (Exchange : σ → Msg RR → GoString → Except E (Msg RR) × σ)
    (r : Msg RR) (queryName : GoString) :
    ∀ (servers : List GoString) (net : σ) (i : Nat) (lastErr : Option E),
      (rangeDnsServers Exchange r queryName net i lastErr servers).panicked = false ∧
      (rangeDnsServers Exchange r queryName net i lastErr servers).overrideMatch = false ∧
      (rangeDnsServers Exchange r queryName net i lastErr servers).written.length = 1 ∧
      (rangeDnsServers Exchange r queryName net i lastErr servers).upstreamSuccess =
        !(rangeDnsServers Exchange r queryName net i lastErr servers).allUpstreamsFailed := by
  intro servers
  induction servers with
  | nil =>
    intro net i lastErr
    rw [rangeDnsServers_nil]
    exact ⟨rfl, rfl, rfl, rfl⟩
  | cons s rest ih =>
    intro net i lastErr
    cases hx : Exchange net r (upstreamAddr s) with
    | mk res net3 =>
      cases res with
      | error err =>
        obtain ⟨h1, h2, h3, h4⟩ := ih net3 (i + 1) (some err)
        rw [rangeDnsServers_cons_error Exchange r queryName net net3 i lastErr s _ err hx]
        exact ⟨h1, h2, h3, h4⟩
      | ok m =>
        rw [rangeDnsServers_cons_ok Exchange r queryName net net3 i lastErr s _ m hx]
        exact ⟨rfl, rfl, rfl, rfl⟩

theorem SetReply_Id (dns request : Msg RR) : (dns.SetReply request).Id = request.Id := by
  unfold Msg.SetReply
  cases request.Question <;> simp only [] <;> split <;> rfl

theorem SetReply_Answer (dns request : Msg RR) : (dns.SetReply request).Answer = dns.Answer := by
  unfold Msg.SetReply
  cases request.Question <;> simp only [] <;> split <;> rfl

theorem SetReply_Rcode (dns request : Msg RR) : (dns.SetReply request).Rcode = RcodeSuccess := by
  unfold Msg.SetReply
  cases request.Question <;> rfl

theorem SetRcode_Rcode (dns request : Msg RR) (rcode : Int) :
    (dns.SetRcode request rcode).Rcode = rcode := rfl

theorem SetRcode_Id (dns request : Msg RR) (rcode : Int) :
    (dns.SetRcode request rcode).Id = request.Id :=
  SetReply_Id dns request

theorem SetRcode_Answer (dns request : Msg RR) (rcode : Int) :
    (dns.SetRcode request rcode).Answer = dns.Answer :=
  SetReply_Answer dns request

theorem serverFailure_fields (r : Msg RR) :
    ((Msg.new.SetReply r).SetRcode r RcodeServerFailure).Rcode = RcodeServerFailure ∧
    ((Msg.new.SetReply r).SetRcode r RcodeServerFailure).Id = r.Id ∧
    ((Msg.new.SetReply r).SetRcode r RcodeServerFailure).Answer = [] := by
  refine ⟨rfl, SetRcode_Id _ _ _, ?_⟩
  rw [SetRcode_Answer, SetReply_Answer]
  rfl

theorem overrideBody_isMapped (NewRR : GoString → Except E RR) (r : Msg RR)
    (queryName ip : GoString) :
    (overrideBody NewRR r queryName ip).1.any LogLine.isMapped = true ∧
    (overrideBody NewRR r queryName ip).1.any LogLine.isResolved = false ∧
    (overrideBody NewRR r queryName ip).1.any LogLine.isAllFailed = false := by
  unfold overrideBody
  cases NewRR (recordText queryName ip) <;> exact ⟨rfl, rfl, rfl⟩

theorem handleDNS_outcome_hit (NewRR : GoString → Except E RR)
    (Exchange : σ → Msg RR → GoString → Except E (Msg RR) × σ)
    (p : DNSProxy) (w : ResponseWriter) (net : σ) (r : Msg RR)
    {q0 : Question} {qs : List Question} {e : GoString × GoString}
    (hq : r.Question = q0 :: qs) (hf : firstMatch p.domainMappings q0.Name = some e) :
    (handleDNS NewRR Exchange p w net r).overrideMatch = true ∧
    (handleDNS NewRR Exchange p w net r).upstreamSuccess = false ∧
    (handleDNS NewRR Exchange p w net r).allUpstreamsFailed = false ∧
    (handleDNS NewRR Exchange p w net r).written.length = 1 ∧
    (handleDNS NewRR Exchange p w net r).panicked = false ∧
    (handleDNS NewRR Exchange p w net r).exchanged = [] := by
  rw [handleDNS_hit NewRR Exchange p w net r hq hf]
  obtain ⟨h1, h2, h3⟩ := overrideBody_isMapped NewRR r q0.Name e.2
  exact ⟨h1, h2, h3, rfl, rfl, rfl⟩

theorem handleDNS_outcome_miss (NewRR : GoString → Except E RR)
    (Exchange : σ → Msg RR → GoString → Except E (Msg RR) × σ)
    (p : DNSProxy) (w : ResponseWriter) (net : σ) (r : Msg RR)
    {q0 : Question} {qs : List Question}
    (hq : r.Question = q0 :: qs) (hf : firstMatch p.domainMappings q0.Name = none) :
    (handleDNS NewRR Exchange p w net r).overrideMatch = false ∧
    (handleDNS NewRR Exchange p w net r).upstreamSuccess =
      !(handleDNS NewRR Exchange p w net r).allUpstreamsFailed ∧
    (handleDNS NewRR Exchange p w net r).written.length = 1 ∧
    (handleDNS NewRR Exchange p w net r).panicked = false := by
  rw [handleDNS_miss NewRR Exchange p w net r hq hf]
  obtain ⟨h1, h2, h3, h4⟩ := rangeDnsServers_outcome Exchange r q0.Name p.dnsServers net 0 none
  exact ⟨h2, h4, h3, h1⟩

theorem overrideMatch_iff_hit (NewRR : GoString → Except E RR)
    (Exchange : σ → Msg RR → GoString → Except E (Msg RR) × σ)
    (p : DNSProxy) (w : ResponseWriter) (net : σ) (r : Msg RR)
    {q0 : Question} {qs : List Question} (hq : r.Question = q0 :: qs) :
    (handleDNS NewRR Exchange p w net r).overrideMatch = true ↔
      ∃ e ∈ p.domainMappings, suffixHit q0.Name e.1 = true := by
  constructor
  · intro h
    cases hf : firstMatch p.domainMappings q0.Name with
    | none =>
      rw [(handleDNS_outcome_miss NewRR Exchange p w net r hq hf).1] at h
      exact absurd h (by decide)
    | some e =>
      exact ⟨e, List.mem_of_find?_eq_some hf,
        @List.find?_some _ (fun x : GoString × GoString => suffixHit q0.Name x.1) e
          p.domainMappings hf⟩
  · intro h
    obtain ⟨e, hf, -, -⟩ := firstMatch_of_hit h
    exact (handleDNS_outcome_hit NewRR Exchange p w net r hq hf).1

theorem forwarded_eq_not_overrideMatch (NewRR : GoString → Except E RR)
    (Exchange : σ → Msg RR → GoString → Except E (Msg RR) × σ)
    (p : DNSProxy) (w : ResponseWriter) (net : σ) (r : Msg RR)
    {q0 : Question} {qs : List Question} (hq : r.Question = q0 :: qs) :
    (handleDNS NewRR Exchange p w net r).forwarded =
      !(handleDNS NewRR Exchange p w net r).overrideMatch := by
  unfold Run.forwarded
  cases hf : firstMatch p.domainMappings q0.Name with
  | none =>
    obtain ⟨h1, h2, -, -⟩ := handleDNS_outcome_miss NewRR Exchange p w net r hq hf
    rw [h2, h1]
    cases (handleDNS NewRR Exchange p w net r).allUpstreamsFailed <;> rfl
  | some e =>
    obtain ⟨h1, h2, h3, -, -, -⟩ := handleDNS_outcome_hit NewRR Exchange p w net r hq hf
    rw [h1, h2, h3]
    rfl

theorem SetReply_Question (dns request : Msg RR) {q0 : Question} {qs : List Question}
    (hq : request.Question = q0 :: qs) : (dns.SetReply request).Question = [q0] := by
  unfold Msg.SetReply
  rw [hq]

theorem SetRcode_Question (dns request : Msg RR) (rcode : Int) {q0 : Question}
    {qs : List Question} (hq : request.Question = q0 :: qs) :
    (dns.SetRcode request rcode).Question = [q0] :=
  SetReply_Question dns request hq

theorem overrideBody_correlated (NewRR : GoString → Except E RR) (r : Msg RR)
    (queryName ip : GoString) {q0 : Question} {qs : List Question}
    (hq : r.Question = q0 :: qs) :
    (overrideBody NewRR r queryName ip).2.Id = r.Id ∧
    (overrideBody NewRR r queryName ip).2.Question = [q0] := by
  unfold overrideBody
  cases NewRR (recordText queryName ip) with
  | error err => exact ⟨SetRcode_Id _ _ _, SetRcode_Question _ _ _ hq⟩
  | ok rr => exact ⟨SetReply_Id _ _, SetReply_Question _ _ hq⟩

theorem overrideBody_answer (NewRR : GoString → Except E RR) (r : Msg RR)
    (queryName ip : GoString) :
    (overrideBody NewRR r queryName ip).2.Answer =
      match NewRR (recordText queryName ip) with
      | .ok rr => [rr]
      | .error _ => [] := by
  unfold overrideBody
  cases NewRR (recordText queryName ip) with
  | error err =>
    simp only []
    rw [SetRcode_Answer, SetReply_Answer]
    rfl
  | ok rr =>
    simp only []
    rw [SetReply_Answer]
    rfl

theorem rangeDnsServers_success_outcome
    (Exchange : σ → Msg RR → GoString → Except E (Msg RR) × σ)
    (r : Msg RR) (queryName u : GoString) (post : List GoString) (resp : Msg RR) (net1 net2 : σ)
    (hok : Exchange net1 r (upstreamAddr u) = (.ok resp, net2)) :
    ∀ (pre : List GoString) (net : σ) (i : Nat) (lastErr : Option E),
      failsThrough Exchange r net pre = some net1 →
      (rangeDnsServers Exchange r queryName net i lastErr (pre ++ u :: post)).upstreamSuccess =
        true := by
  intro pre
  induction pre with
  | nil =>
    intro net i lastErr hfail
    simp only [failsThrough, Option.some.injEq] at hfail
    subst hfail
    rw [List.nil_append, rangeDnsServers_cons_ok Exchange r queryName net net2 i lastErr u post resp hok]
    rfl
  | cons s pre ih =>
    intro net i lastErr hfail
    cases hx : Exchange net r (upstreamAddr s) with
    | mk res net3 =>
      cases res with
      | error err =>
        rw [failsThrough_cons_error Exchange r net net3 s pre err hx] at hfail
        rw [List.cons_append,
          rangeDnsServers_cons_error Exchange r queryName net net3 i lastErr s _ err hx]
        exact ih net3 (i + 1) (some err) hfail
      | ok m =>
        rw [failsThrough_cons_ok Exchange r net net3 s pre m hx] at hfail
        exact absurd hfail (by simp)

theorem rangeDnsServers_allFailed_outcome
    (Exchange : σ → Msg RR → GoString → Except E (Msg RR) × σ)
    (r : Msg RR) (queryName : GoString) (net1 : σ) :
    ∀ (servers : List GoString) (net : σ) (i : Nat) (lastErr : Option E),
      failsThrough Exchange r net servers = some net1 →
      (rangeDnsServers Exchange r queryName net i lastErr servers).allUpstreamsFailed = true := by
  intro servers
  induction servers with
  | nil =>
    intro net i lastErr _
    rw [rangeDnsServers_nil]
    rfl
  | cons s rest ih =>
    intro net i lastErr hfail
    cases hx : Exchange net r (upstreamAddr s) with
    | mk res net3 =>
      cases res with
      | error err =>
        rw [failsThrough_cons_error Exchange r net net3 s rest err hx] at hfail
        rw [rangeDnsServers_cons_error Exchange r queryName net net3 i lastErr s _ err hx]
        exact ih net3 (i + 1) (some err) hfail
      | ok m =>
        rw [failsThrough_cons_ok Exchange r net net3 s rest m hx] at hfail
        exact absurd hfail (by simp)

theorem rangeDnsServers_exchanged_prefix
    (Exchange : σ → Msg RR → GoString → Except E (Msg RR) × σ)
    (r : Msg RR) (queryName : GoString) (servers : List GoString) (net : σ) (i : Nat)
    (lastErr : Option E) :
    ∃ k, k ≤ servers.length ∧ (servers ≠ [] → 0 < k) ∧
      (rangeDnsServers Exchange r queryName net i lastErr servers).exchanged =
        (servers.take k).map upstreamAddr := by
  rcases rangeDnsServers_cases Exchange r servers net with
    ⟨net1, hall⟩ | ⟨pre, u, post, net1, resp, net2, hlist, hpre, hok⟩
  · refine ⟨servers.length, le_refl _, ?_, ?_⟩
    · intro hne
      exact List.length_pos.mpr hne
    · rw [List.take_length]
      exact (rangeDnsServers_allFailed Exchange r queryName net1 servers net i lastErr hall).2.1
  · refine ⟨pre.length + 1, ?_, fun _ => Nat.succ_pos _, ?_⟩
    · rw [hlist, List.length_append, List.length_cons]
      omega
    · have htake : servers.take (pre.length + 1) = pre ++ [u] := by
        rw [hlist, List.take_append_eq_append_take]
        simp
      rw [htake, hlist]
      exact (rangeDnsServers_success Exchange r queryName u post resp net1 net2 hok
        pre net i lastErr hpre).2.1

theorem firstMatch_append (queryName suffix ip : GoString)
    (pre post : List (GoString × GoString))
    (hpre : ∀ e ∈ pre, suffixHit queryName e.1 = false)
    (hit : suffixHit queryName suffix = true) :
    firstMatch (pre ++ (suffix, ip) :: post) queryName = some (suffix, ip) := by
  unfold firstMatch
  induction pre with
  | nil => simp [List.find?_cons, hit]
  | cons e rest ih =>
    have he : suffixHit queryName e.1 = false := hpre e (List.mem_cons_self _ _)
    rw [List.cons_append, List.find?_cons]
    simp only [he]
    exact ih (fun x hx => hpre x (List.mem_cons_of_mem _ hx))

theorem handleDNS_panic (NewRR : GoString → Except E RR)
    (Exchange : σ → Msg RR → GoString → Except E (Msg RR) × σ)
    (p : DNSProxy) (w : ResponseWriter) (net : σ) (r : Msg RR) (hq : r.Question = []) :
    handleDNS NewRR Exchange p w net r =
      { panicked := true, logs := [], exchanged := [], written := [], net := net } := by
  unfold handleDNS
  simp only [hq]

theorem handleDNS_no_panic (NewRR : GoString → Except E RR)
    (Exchange : σ → Msg RR → GoString → Except E (Msg RR) × σ)
    (p : DNSProxy) (w : ResponseWriter) (net : σ) (r : Msg RR) (hq : r.Question ≠ []) :
    (handleDNS NewRR Exchange p w net r).panicked = false ∧
    (handleDNS NewRR Exchange p w net r).written.length = 1 := by
  cases hr : r.Question with
  | nil => exact absurd hr hq
  | cons q0 qs =>
    cases hf : firstMatch p.domainMappings q0.Name with
    | none =>
      obtain ⟨-, -, h3, h4⟩ := handleDNS_outcome_miss NewRR Exchange p w net r hr hf
      exact ⟨h4, h3⟩
    | some e =>
      obtain ⟨-, -, -, h4, h5, -⟩ := handleDNS_outcome_hit NewRR Exchange p w net r hr hf
      exact ⟨h5, h4⟩

theorem serve_proxy (NewRR : GoString → Except E RR)
    (Exchange : σ → Msg RR → GoString → Except E (Msg RR) × σ) (p : DNSProxy) :
    ∀ (queries : List (ResponseWriter × Msg RR)) (net : σ),
      (serve NewRR Exchange p net queries).1 = p := by
  intro queries
  induction queries with
  | nil => intro net; rfl
  | cons x rest ih =>
    intro net
    obtain ⟨w, r⟩ := x
    rw [serve]
    simp only []
    split
    · rfl
    · exact ih _

theorem serve_last (NewRR : GoString → Except E RR)
    (Exchange : σ → Msg RR → GoString → Except E (Msg RR) × σ) (p : DNSProxy)
    (w : ResponseWriter) (r : Msg RR) :
    ∀ (earlier : List (ResponseWriter × Msg RR)) (net : σ),
      (∀ x ∈ earlier, x.2.Question ≠ []) →
      (serve NewRR Exchange p net (earlier ++ [(w, r)])).2.getLast? =
        some (handleDNS NewRR Exchange p w (netAfter NewRR Exchange p net earlier) r) := by
  intro earlier
  induction earlier with
  | nil =>
    intro net _
    rw [List.nil_append, serve]
    simp only []
    split <;> rfl
  | cons x rest ih =>
    intro net hx
    obtain ⟨w1, r1⟩ := x
    have hq : r1.Question ≠ [] := hx (w1, r1) (List.mem_cons_self _ _)
    have hnp := (handleDNS_no_panic NewRR Exchange p w1 net r1 hq).1
    rw [List.cons_append, serve]
    simp only [hnp, Bool.false_eq_true, if_false]
    rw [netAfter]
    have hrec := ih (handleDNS NewRR Exchange p w1 net r1).net
      (fun y hy => hx y (List.mem_cons_of_mem _ hy))
    rw [List.getLast?_cons, hrec]
    rfl

theorem rangeDnsServers_state_independent
    (Exchange : σ → Msg RR → GoString → Except E (Msg RR) × σ)
    (hind : ∀ (n1 n2 : σ) (m : Msg RR) (a : GoString), (Exchange n1 m a).1 = (Exchange n2 m a).1)
    (r : Msg RR) (queryName : GoString) :
    ∀ (servers : List GoString) (net1 net2 : σ) (i : Nat) (lastErr : Option E),
      (rangeDnsServers Exchange r queryName net1 i lastErr servers).exchanged =
        (rangeDnsServers Exchange r queryName net2 i lastErr servers).exchanged ∧
      (rangeDnsServers Exchange r queryName net1 i lastErr servers).written =
        (rangeDnsServers Exchange r queryName net2 i lastErr servers).written ∧
      (rangeDnsServers Exchange r queryName net1 i lastErr servers).logs =
        (rangeDnsServers Exchange r queryName net2 i lastErr servers).logs := by
  intro servers
  induction servers with
  | nil =>
    intro net1 net2 i lastErr
    rw [rangeDnsServers_nil, rangeDnsServers_nil]
    exact ⟨rfl, rfl, rfl⟩
  | cons s rest ih =>
    intro net1 net2 i lastErr
    have h12 := hind net1 net2 r (upstreamAddr s)
    cases hx1 : Exchange net1 r (upstreamAddr s) with
    | mk res1 n1 =>
      cases hx2 : Exchange net2 r (upstreamAddr s) with
      | mk res2 n2 =>
        rw [hx1, hx2] at h12
        simp only [] at h12
        subst h12
        cases res1 with
        | error err =>
          rw [rangeDnsServers_cons_error Exchange r queryName net1 n1 i lastErr s _ err hx1,
            rangeDnsServers_cons_error Exchange r queryName net2 n2 i lastErr s _ err hx2]
          obtain ⟨h1, h2, h3⟩ := ih n1 n2 (i + 1) (some err)
          refine ⟨?_, h2, ?_⟩
          · show upstreamAddr s :: _ = upstreamAddr s :: _
            rw [h1]
          · show _ :: _ = _ :: _
            rw [h3]
        | ok m =>
          rw [rangeDnsServers_cons_ok Exchange r queryName net1 n1 i lastErr s _ m hx1,
            rangeDnsServers_cons_ok Exchange r queryName net2 n2 i lastErr s _ m hx2]
          exact ⟨rfl, rfl, rfl⟩

theorem handleDNS_state_independent (NewRR : GoString → Except E RR)
    (Exchange : σ → Msg RR → GoString → Except E (Msg RR) × σ)
    (hind : ∀ (n1 n2 : σ) (m : Msg RR) (a : GoString), (Exchange n1 m a).1 = (Exchange n2 m a).1)
    (p : DNSProxy) (w : ResponseWriter) (net1 net2 : σ) (r : Msg RR) :
    (handleDNS NewRR Exchange p w net1 r).exchanged =
      (handleDNS NewRR Exchange p w net2 r).exchanged ∧
    (handleDNS NewRR Exchange p w net1 r).written =
      (handleDNS NewRR Exchange p w net2 r).written ∧
    (handleDNS NewRR Exchange p w net1 r).logs =
      (handleDNS NewRR Exchange p w net2 r).logs := by
  cases hq : r.Question with
  | nil =>
    rw [handleDNS_panic NewRR Exchange p w net1 r hq, handleDNS_panic NewRR Exchange p w net2 r hq]
    exact ⟨rfl, rfl, rfl⟩
  | cons q0 qs =>
    cases hf : firstMatch p.domainMappings q0.Name with
    | some e =>
      rw [handleDNS_hit NewRR Exchange p w net1 r hq hf,
        handleDNS_hit NewRR Exchange p w net2 r hq hf]
      exact ⟨rfl, rfl, rfl⟩
    | none =>
      rw [handleDNS_miss NewRR Exchange p w net1 r hq hf,
        handleDNS_miss NewRR Exchange p w net2 r hq hf]
      obtain ⟨h1, h2, h3⟩ := rangeDnsServers_state_independent Exchange hind r q0.Name
        p.dnsServers net1 net2 0 none
      refine ⟨h1, h2, ?_⟩
      show _ :: _ = _ :: _
      rw [h3]

theorem stripTrailingDot_append_dot (l : GoString) : stripTrailingDot (l ++ ['.']) = l := by
  unfold stripTrailingDot
  rw [if_pos (by simp), List.dropLast_concat]

theorem stripTrailingDot_of_getLast_ne (l : GoString) (h : l.getLast? ≠ some '.') :
    stripTrailingDot l = l := by
  unfold stripTrailingDot
  rw [if_neg h]

theorem ToLower_append (a b : GoString) : ToLower (a ++ b) = ToLower a ++ ToLower b := by
  unfold ToLower
  rw [List.map_append]

theorem ToLower_length (a : GoString) : (ToLower a).length = a.length := by
  unfold ToLower
  rw [List.length_map]

theorem ToLower_dot : ToLower ['.'] = ['.'] := by decide

theorem suffixHit_of_empty_key (queryName key : GoString) (h : TrimSuffix key ['.'] = []) :
    suffixHit queryName key = true := by
  unfold suffixHit
  rw [h, HasSuffix_iff]
  exact List.nil_suffix

theorem suffixHit_bare_domain (d : GoString) (hne : d ≠ []) (hdot : d.getLast? ≠ some '.') :
    suffixHit (d ++ ['.']) (['.'] ++ d) = false := by
  have hkey : stripTrailingDot (['.'] ++ d) = ['.'] ++ d := by
    apply stripTrailingDot_of_getLast_ne
    cases d with
    | nil => exact absurd rfl hne
    | cons x rest =>
      have h2 : (['.'] ++ x :: rest).getLast? = (x :: rest).getLast? := by
        simp [List.getLast?_cons_cons]
      rw [h2]
      exact hdot
  cases hs : suffixHit (d ++ ['.']) (['.'] ++ d) with
  | false => rfl
  | true =>
    rw [suffixHit_iff, hkey, ToLower_append, ToLower_dot, stripTrailingDot_append_dot] at hs
    have hlen := hs.length_le
    rw [ToLower_length, List.length_append, List.length_singleton] at hlen
    omega

theorem suffixHit_subdomain (x d : GoString) (hne : d ≠ []) (hlow : ToLower d = d)
    (hdot : d.getLast? ≠ some '.') :
    suffixHit (x ++ ['.'] ++ d ++ ['.']) (['.'] ++ d) = true := by
  have hkey : stripTrailingDot (['.'] ++ d) = ['.'] ++ d := by
    apply stripTrailingDot_of_getLast_ne
    cases d with
    | nil => exact absurd rfl hne
    | cons y rest =>
      have h2 : (['.'] ++ y :: rest).getLast? = (y :: rest).getLast? := by
        simp [List.getLast?_cons_cons]
      rw [h2]
      exact hdot
  rw [suffixHit_iff, hkey, ToLower_append, ToLower_dot, stripTrailingDot_append_dot,
    ToLower_append, ToLower_append, ToLower_dot, hlow, List.append_assoc]
  exact List.suffix_append _ _

end LoopLemmas

/-! ## Override answers -/

section Claims

variable {RR E σ : Type}

/-- C1, counterexample. With the table `.docker -> not-an-ip` the query `app.docker.`
matches the configured suffix, yet the one response written has the server-failure
code and an empty answer section: the text `app.docker. 60 IN A not-an-ip` is not a
record, so the answer section does not hold one address record. -/
theorem override_answer_missing_for_malformed_target :
    suffixHit "app.docker.".toList ".docker".toList = true ∧
    (handleDNS Sim.NewRR Sim.Exchange
        (Sim.proxy [] [(".docker".toList, "not-an-ip".toList)]) Sim.writer []
        (Sim.query 7 "app.docker.".toList)).written.map (fun m => (m.Rcode, m.Answer)) =
      [(RcodeServerFailure, [])] := by
  decide

/-- C1, as amended. For every table and every query whose name matches a configured
suffix, let `(suffix, ip)` be the first matching entry in the order of the loop. If
`dns.NewRR` builds a record `rr` from the text `<queried name> 60 IN A <ip>`, then
`handleDNS` writes exactly one message: the reply to the query (its identifier, its
first question, success code) whose answer section is exactly `[rr]`. -/
theorem override_answer_is_the_built_record (NewRR : GoString → Except E RR)
    (Exchange : σ → Msg RR → GoString → Except E (Msg RR) × σ)
    (p : DNSProxy) (w : ResponseWriter) (net : σ) (r : Msg RR)
    (q0 : Question) (qs : List Question) (suffix ip : GoString) (rr : RR)
    (hq : r.Question = q0 :: qs)
    (hfirst : firstMatch p.domainMappings q0.Name = some (suffix, ip))
    (hrr : NewRR (q0.Name ++ " 60 IN A ".toList ++ ip) = .ok rr) :
    (suffix, ip) ∈ p.domainMappings ∧
    suffixHit q0.Name suffix = true ∧
    (handleDNS NewRR Exchange p w net r).written =
      [{ (Msg.new.SetReply r : Msg RR) with Answer := [rr] }] ∧
    (Msg.new.SetReply r : Msg RR).Id = r.Id ∧
    (Msg.new.SetReply r : Msg RR).Rcode = RcodeSuccess := by
  have hmem : (suffix, ip) ∈ p.domainMappings := List.mem_of_find?_eq_some hfirst
  have hit : suffixHit q0.Name suffix = true :=
    @List.find?_some _ (fun x : GoString × GoString => suffixHit q0.Name x.1) (suffix, ip)
      p.domainMappings hfirst
  refine ⟨hmem, hit, ?_, SetReply_Id _ _, SetReply_Rcode _ _⟩
  rw [handleDNS_hit NewRR Exchange p w net r hq hfirst]
  have hrr1 : NewRR (recordText q0.Name ip) = .ok rr := hrr
  simp only [overrideBody, hrr1, SetReply_Answer]
  rfl

/-- C1, witness of the amended statement: the table `.docker -> 172.168.1.1` and the
query `app.docker.` give one message whose single answer is the record
`app.docker. 60 IN A 172.168.1.1`. -/
theorem override_answer_is_the_built_record_witness :
    Sim.NewRR "app.docker. 60 IN A 172.168.1.1".toList =
      .ok { Name := "app.docker.".toList, Rrtype := Sim.TypeA, Class := Sim.ClassINET,
            Ttl := 60, A := [172, 168, 1, 1] } ∧
    (handleDNS Sim.NewRR Sim.Exchange
        (Sim.proxy ["8.8.8.8".toList] [(".docker".toList, "172.168.1.1".toList)]) Sim.writer []
        (Sim.query 7 "app.docker.".toList)).written =
      [{ (Msg.new.SetReply (Sim.query 7 "app.docker.".toList) : Msg Sim.ARecord) with
          Answer := [{ Name := "app.docker.".toList, Rrtype := Sim.TypeA,
                       Class := Sim.ClassINET, Ttl := 60, A := [172, 168, 1, 1] }] }] :=
  ⟨rfl,
    (override_answer_is_the_built_record Sim.NewRR Sim.Exchange
      (Sim.proxy ["8.8.8.8".toList] [(".docker".toList, "172.168.1.1".toList)]) Sim.writer []
      (Sim.query 7 "app.docker.".toList)
      { Name := "app.docker.".toList, Qtype := Sim.TypeA, Qclass := Sim.ClassINET } []
      ".docker".toList "172.168.1.1".toList
      { Name := "app.docker.".toList, Rrtype := Sim.TypeA, Class := Sim.ClassINET,
        Ttl := 60, A := [172, 168, 1, 1] }
      rfl (by decide) rfl).2.2.1⟩

/-! ## Ordered failover -/

/-- C2. For every query that matches no configured suffix and every upstream list
`pre ++ u :: post` in which the exchanges with the upstreams of `pre`, made in list
order, all return a transport error and the exchange with `u` then returns a message
`resp`, `handleDNS` writes exactly the message `resp`, whatever its fields (status
code included). With `pre` empty: the response of the first upstream is the one
written. -/
theorem forwarded_reply_is_first_successful_upstream (NewRR : GoString → Except E RR)
    (Exchange : σ → Msg RR → GoString → Except E (Msg RR) × σ)
    (p : DNSProxy) (w : ResponseWriter) (net net1 net2 : σ) (r resp : Msg RR)
    (q0 : Question) (qs : List Question) (pre post : List GoString) (u : GoString)
    (hq : r.Question = q0 :: qs)
    (hmiss : ∀ e ∈ p.domainMappings, suffixHit q0.Name e.1 = false)
    (hlist : p.dnsServers = pre ++ u :: post)
    (hpre : failsThrough Exchange r net pre = some net1)
    (hok : Exchange net1 r (u ++ ":53".toList) = (.ok resp, net2)) :
    (handleDNS NewRR Exchange p w net r).written = [resp] := by
  rw [handleDNS_miss NewRR Exchange p w net r hq (firstMatch_eq_none.mpr hmiss), hlist]
  exact (rangeDnsServers_success Exchange r q0.Name u post resp net1 net2 hok
    pre net 0 none hpre).1

/-- C2, witness: upstreams `10.0.0.1`, `10.0.0.2`, the first exchange times out, the
second returns a NOERROR message with one address record; the message written is
that of the second upstream. -/
theorem forwarded_reply_is_first_successful_upstream_witness :
    (handleDNS Sim.NewRR Sim.Exchange
        (Sim.proxy ["10.0.0.1".toList, "10.0.0.2".toList] []) Sim.writer
        [Sim.timeout,
          .ok (Sim.upstreamReply (Sim.query 7 "example.com.".toList) RcodeSuccess
            [Sim.exampleRecord "example.com.".toList])]
        (Sim.query 7 "example.com.".toList)).written =
      [Sim.upstreamReply (Sim.query 7 "example.com.".toList) RcodeSuccess
        [Sim.exampleRecord "example.com.".toList]] :=
  forwarded_reply_is_first_successful_upstream Sim.NewRR Sim.Exchange
    (Sim.proxy ["10.0.0.1".toList, "10.0.0.2".toList] []) Sim.writer
    [Sim.timeout,
      .ok (Sim.upstreamReply (Sim.query 7 "example.com.".toList) RcodeSuccess
        [Sim.exampleRecord "example.com.".toList])]
    [.ok (Sim.upstreamReply (Sim.query 7 "example.com.".toList) RcodeSuccess
        [Sim.exampleRecord "example.com.".toList])]
    []
    (Sim.query 7 "example.com.".toList)
    (Sim.upstreamReply (Sim.query 7 "example.com.".toList) RcodeSuccess
      [Sim.exampleRecord "example.com.".toList])
    { Name := "example.com.".toList, Qtype := Sim.TypeA, Qclass := Sim.ClassINET } []
    ["10.0.0.1".toList] [] "10.0.0.2".toList
    rfl (by decide) rfl rfl rfl

/-- C3. For every query that matches no configured suffix and every upstream list, the
addresses `handleDNS` exchanges with are those of the first `k` upstreams of the
list, in list order and one exchange per position, where either `k` is the length of
the list and every exchange returned a transport error, or the `k`-th upstream is
the first whose exchange returned a message (the `k - 1` before it having returned
errors). No upstream after that one is contacted, and none is contacted twice for
one position. -/
theorem exchanges_stop_at_first_success (NewRR : GoString → Except E RR)
    (Exchange : σ → Msg RR → GoString → Except E (Msg RR) × σ)
    (p : DNSProxy) (w : ResponseWriter) (net : σ) (r : Msg RR)
    (q0 : Question) (qs : List Question)
    (hq : r.Question = q0 :: qs)
    (hmiss : ∀ e ∈ p.domainMappings, suffixHit q0.Name e.1 = false) :
    ∃ k, k ≤ p.dnsServers.length ∧
      (handleDNS NewRR Exchange p w net r).exchanged =
        (p.dnsServers.take k).map (fun server => server ++ ":53".toList) ∧
      ((k = p.dnsServers.length ∧
          ∃ net1, failsThrough Exchange r net p.dnsServers = some net1) ∨
        (0 < k ∧ ∃ u net1 resp net2, p.dnsServers[k - 1]? = some u ∧
          failsThrough Exchange r net (p.dnsServers.take (k - 1)) = some net1 ∧
          Exchange net1 r (u ++ ":53".toList) = (.ok resp, net2))) := by
  rw [handleDNS_miss NewRR Exchange p w net r hq (firstMatch_eq_none.mpr hmiss)]
  rcases rangeDnsServers_cases Exchange r p.dnsServers net with
    ⟨net1, hall⟩ | ⟨pre, u, post, net1, resp, net2, hlist, hpre, hok⟩
  · refine ⟨p.dnsServers.length, le_refl _, ?_, Or.inl ⟨rfl, net1, hall⟩⟩
    rw [List.take_length]
    exact (rangeDnsServers_allFailed Exchange r q0.Name net1 p.dnsServers net 0 none hall).2.1
  · refine ⟨pre.length + 1, ?_, ?_, Or.inr ⟨Nat.succ_pos _, u, net1, resp, net2, ?_, ?_, hok⟩⟩
    · rw [hlist, List.length_append, List.length_cons]
      omega
    · have htake : (p.dnsServers).take (pre.length + 1) = pre ++ [u] := by
        rw [hlist, List.take_append_eq_append_take]
        simp
      rw [htake]
      show (rangeDnsServers Exchange r q0.Name net 0 none p.dnsServers).exchanged = _
      rw [hlist]
      exact (rangeDnsServers_success Exchange r q0.Name u post resp net1 net2 hok
        pre net 0 none hpre).2.1
    · rw [hlist, Nat.add_sub_cancel, List.getElem?_append_right (le_refl _), Nat.sub_self,
        List.getElem?_cons_zero]
    · have htake : (p.dnsServers).take (pre.length + 1 - 1) = pre := by
        rw [hlist]
        simp
      rw [htake]
      exact hpre

/-- C3, witness: three upstreams, the first exchange fails and the second succeeds;
the exchanges are with the first and the second upstream only, the third is not
contacted. -/
theorem exchanges_stop_at_first_success_witness :
    (handleDNS Sim.NewRR Sim.Exchange
        (Sim.proxy ["10.0.0.1".toList, "10.0.0.2".toList, "10.0.0.3".toList] []) Sim.writer
        [Sim.timeout, .ok (Sim.upstreamReply (Sim.query 7 "example.com.".toList) RcodeSuccess [])]
        (Sim.query 7 "example.com.".toList)).exchanged =
      ["10.0.0.1:53".toList, "10.0.0.2:53".toList] ∧
    ∃ k, k ≤ 3 ∧
      (handleDNS Sim.NewRR Sim.Exchange
        (Sim.proxy ["10.0.0.1".toList, "10.0.0.2".toList, "10.0.0.3".toList] []) Sim.writer
        [Sim.timeout, .ok (Sim.upstreamReply (Sim.query 7 "example.com.".toList) RcodeSuccess [])]
        (Sim.query 7 "example.com.".toList)).exchanged =
      (["10.0.0.1".toList, "10.0.0.2".toList, "10.0.0.3".toList].take k).map
        (fun server => server ++ ":53".toList) :=
  ⟨rfl,
    (exchanges_stop_at_first_success Sim.NewRR Sim.Exchange
      (Sim.proxy ["10.0.0.1".toList, "10.0.0.2".toList, "10.0.0.3".toList] []) Sim.writer
      [Sim.timeout, .ok (Sim.upstreamReply (Sim.query 7 "example.com.".toList) RcodeSuccess [])]
      (Sim.query 7 "example.com.".toList)
      { Name := "example.com.".toList, Qtype := Sim.TypeA, Qclass := Sim.ClassINET } []
      rfl (by decide)).imp (fun _ h => ⟨h.1, h.2.1⟩)⟩

/-- C4. For every query that matches no configured suffix and every upstream list, the
empty one included, in which every exchange returns a transport error, `handleDNS`
writes exactly one message; it has the server-failure code, the identifier of the
query and an empty answer section. -/
theorem all_upstreams_failed_gives_server_failure (NewRR : GoString → Except E RR)
    (Exchange : σ → Msg RR → GoString → Except E (Msg RR) × σ)
    (p : DNSProxy) (w : ResponseWriter) (net net1 : σ) (r : Msg RR)
    (q0 : Question) (qs : List Question)
    (hq : r.Question = q0 :: qs)
    (hmiss : ∀ e ∈ p.domainMappings, suffixHit q0.Name e.1 = false)
    (hall : failsThrough Exchange r net p.dnsServers = some net1) :
    ∃ m, (handleDNS NewRR Exchange p w net r).written = [m] ∧
      m.Rcode = RcodeServerFailure ∧ m.Id = r.Id ∧ m.Answer = [] := by
  rw [handleDNS_miss NewRR Exchange p w net r hq (firstMatch_eq_none.mpr hmiss)]
  refine ⟨(Msg.new.SetReply r).SetRcode r RcodeServerFailure, ?_, serverFailure_fields r⟩
  exact (rangeDnsServers_allFailed Exchange r q0.Name net1 p.dnsServers net 0 none hall).1

/-- C4, witness: two upstreams that both time out, query identifier 7. -/
theorem all_upstreams_failed_gives_server_failure_witness :
    ∃ m, (handleDNS Sim.NewRR Sim.Exchange
        (Sim.proxy ["10.0.0.1".toList, "10.0.0.2".toList] []) Sim.writer
        [Sim.timeout, Sim.timeout] (Sim.query 7 "example.com.".toList)).written = [m] ∧
      m.Rcode = RcodeServerFailure ∧ m.Id = 7 ∧ m.Answer = [] :=
  all_upstreams_failed_gives_server_failure Sim.NewRR Sim.Exchange
    (Sim.proxy ["10.0.0.1".toList, "10.0.0.2".toList] []) Sim.writer
    [Sim.timeout, Sim.timeout] [] (Sim.query 7 "example.com.".toList)
    { Name := "example.com.".toList, Qtype := Sim.TypeA, Qclass := Sim.ClassINET } []
    rfl (by decide) rfl

/-! ## Override lookup and upstreams -/

/-- C5. For every query that matches a configured suffix, `handleDNS` performs no
upstream exchange and leaves the network as it was; and the messages it writes are
the same for every other upstream list, every other behaviour of the upstreams and
every other state of the network. -/
theorem override_hit_contacts_no_upstream (σ2 : Type) (NewRR : GoString → Except E RR)
    (Exchange : σ → Msg RR → GoString → Except E (Msg RR) × σ)
    (p : DNSProxy) (w : ResponseWriter) (net : σ) (r : Msg RR)
    (q0 : Question) (qs : List Question)
    (hq : r.Question = q0 :: qs)
    (hmatch : ∃ e ∈ p.domainMappings, suffixHit q0.Name e.1 = true) :
    (handleDNS NewRR Exchange p w net r).exchanged = [] ∧
    (handleDNS NewRR Exchange p w net r).net = net ∧
    ∀ (Exchange2 : σ2 → Msg RR → GoString → Except E (Msg RR) × σ2)
      (servers2 : List GoString) (net2 : σ2),
      (handleDNS NewRR Exchange2 { p with dnsServers := servers2 } w net2 r).written =
        (handleDNS NewRR Exchange p w net r).written := by
  obtain ⟨e, hf, -, -⟩ := firstMatch_of_hit hmatch
  rw [handleDNS_hit NewRR Exchange p w net r hq hf]
  refine ⟨rfl, rfl, ?_⟩
  intro Exchange2 servers2 net2
  rw [handleDNS_hit NewRR Exchange2 { p with dnsServers := servers2 } w net2 r hq hf]

/-- C5, witness: the query `app.docker.` against the table `.docker -> 172.168.1.1`
with two upstreams that would both time out: no exchange, and the same message as
with an empty upstream list. -/
theorem override_hit_contacts_no_upstream_witness :
    (handleDNS Sim.NewRR Sim.Exchange
        (Sim.proxy ["10.0.0.1".toList, "10.0.0.2".toList]
          [(".docker".toList, "172.168.1.1".toList)]) Sim.writer
        [Sim.timeout, Sim.timeout] (Sim.query 7 "app.docker.".toList)).exchanged = [] ∧
    (handleDNS Sim.NewRR Sim.Exchange
        { Sim.proxy ["10.0.0.1".toList, "10.0.0.2".toList]
            [(".docker".toList, "172.168.1.1".toList)] with dnsServers := [] } Sim.writer
        [] (Sim.query 7 "app.docker.".toList)).written =
      (handleDNS Sim.NewRR Sim.Exchange
        (Sim.proxy ["10.0.0.1".toList, "10.0.0.2".toList]
          [(".docker".toList, "172.168.1.1".toList)]) Sim.writer
        [Sim.timeout, Sim.timeout] (Sim.query 7 "app.docker.".toList)).written :=
  have h := override_hit_contacts_no_upstream (List (Except GoString (Msg Sim.ARecord)))
    Sim.NewRR Sim.Exchange
    (Sim.proxy ["10.0.0.1".toList, "10.0.0.2".toList]
      [(".docker".toList, "172.168.1.1".toList)]) Sim.writer
    [Sim.timeout, Sim.timeout] (Sim.query 7 "app.docker.".toList)
    { Name := "app.docker.".toList, Qtype := Sim.TypeA, Qclass := Sim.ClassINET } []
    rfl ⟨(".docker".toList, "172.168.1.1".toList), by decide, by decide⟩
  ⟨h.1, h.2.2 Sim.Exchange [] []⟩

/-- C6. For every table and every query with a first question, `handleDNS` takes the
override branch exactly when some configured suffix, without one trailing dot, is a
string suffix of the lower-cased query name without one trailing dot; and it takes
the forwarding branch exactly when no configured suffix is. -/
theorem override_branch_iff_some_suffix_matches (NewRR : GoString → Except E RR)
    (Exchange : σ → Msg RR → GoString → Except E (Msg RR) × σ)
    (p : DNSProxy) (w : ResponseWriter) (net : σ) (r : Msg RR)
    (q0 : Question) (qs : List Question)
    (hq : r.Question = q0 :: qs) :
    ((handleDNS NewRR Exchange p w net r).overrideMatch = true ↔
      SpecOverride p.domainMappings q0.Name) ∧
    ((handleDNS NewRR Exchange p w net r).forwarded = true ↔
      ¬ SpecOverride p.domainMappings q0.Name) := by
  have hspec : SpecOverride p.domainMappings q0.Name ↔
      ∃ e ∈ p.domainMappings, suffixHit q0.Name e.1 = true := by
    unfold SpecOverride
    constructor
    · rintro ⟨e, he, h⟩
      exact ⟨e, he, (suffixHit_iff _ _).mpr h⟩
    · rintro ⟨e, he, h⟩
      exact ⟨e, he, (suffixHit_iff _ _).mp h⟩
  rw [hspec]
  refine ⟨overrideMatch_iff_hit NewRR Exchange p w net r hq, ?_⟩
  cases hf : firstMatch p.domainMappings q0.Name with
  | none =>
    obtain ⟨-, h2, -, -⟩ := handleDNS_outcome_miss NewRR Exchange p w net r hq hf
    have hfw : (handleDNS NewRR Exchange p w net r).forwarded = true := by
      unfold Run.forwarded
      rw [h2]
      cases (handleDNS NewRR Exchange p w net r).allUpstreamsFailed <;> rfl
    have hno : ¬ ∃ e ∈ p.domainMappings, suffixHit q0.Name e.1 = true := by
      rintro ⟨e, he, hit⟩
      rw [firstMatch_eq_none.mp hf e he] at hit
      exact absurd hit (by decide)
    exact ⟨fun _ => hno, fun _ => hfw⟩
  | some e =>
    obtain ⟨-, h2, h3, -, -, -⟩ := handleDNS_outcome_hit NewRR Exchange p w net r hq hf
    have hfw : (handleDNS NewRR Exchange p w net r).forwarded = false := by
      unfold Run.forwarded
      rw [h2, h3]
      rfl
    have hyes : ∃ e ∈ p.domainMappings, suffixHit q0.Name e.1 = true :=
      ⟨e, List.mem_of_find?_eq_some hf,
        @List.find?_some _ (fun x : GoString × GoString => suffixHit q0.Name x.1) e
          p.domainMappings hf⟩
    rw [hfw]
    exact ⟨fun h => absurd h (by decide), fun h => absurd hyes h⟩

/-- C6, witness: the table `.docker.` (with a trailing dot) and the query `App.Docker.`:
`.docker` is a suffix of `app.docker`, and the override branch is taken. -/
theorem override_branch_iff_some_suffix_matches_witness :
    SpecOverride [(".docker.".toList, "172.168.1.1".toList)] "App.Docker.".toList ∧
    (handleDNS Sim.NewRR Sim.Exchange
        (Sim.proxy ["8.8.8.8".toList] [(".docker.".toList, "172.168.1.1".toList)]) Sim.writer
        [] (Sim.query 7 "App.Docker.".toList)).overrideMatch = true :=
  have h := override_branch_iff_some_suffix_matches Sim.NewRR Sim.Exchange
    (Sim.proxy ["8.8.8.8".toList] [(".docker.".toList, "172.168.1.1".toList)]) Sim.writer
    [] (Sim.query 7 "App.Docker.".toList)
    { Name := "App.Docker.".toList, Qtype := Sim.TypeA, Qclass := Sim.ClassINET } [] rfl
  ⟨h.1.mp (by decide), by decide⟩

/-- C7, the code at the failing input. The table `.Docker -> 172.168.1.1` and the query
`app.docker.`: no override, the query is forwarded to the upstream; with the suffix
written `.docker` the same query is an override hit. Only the query name is
lower-cased (line 34), the configured suffix is compared as written (line 38). -/
theorem upper_case_suffix_is_never_hit :
    (handleDNS Sim.NewRR Sim.Exchange
        (Sim.proxy ["8.8.8.8".toList] [(".Docker".toList, "172.168.1.1".toList)]) Sim.writer
        [] (Sim.query 7 "app.docker.".toList)).overrideMatch = false ∧
    (handleDNS Sim.NewRR Sim.Exchange
        (Sim.proxy ["8.8.8.8".toList] [(".Docker".toList, "172.168.1.1".toList)]) Sim.writer
        [] (Sim.query 7 "app.docker.".toList)).exchanged = ["8.8.8.8:53".toList] ∧
    (handleDNS Sim.NewRR Sim.Exchange
        (Sim.proxy ["8.8.8.8".toList] [(".Docker".toList, "172.168.1.1".toList)]) Sim.writer
        [] (Sim.query 7 "App.Docker.".toList)).overrideMatch = false ∧
    (handleDNS Sim.NewRR Sim.Exchange
        (Sim.proxy ["8.8.8.8".toList] [(".docker".toList, "172.168.1.1".toList)]) Sim.writer
        [] (Sim.query 7 "app.docker.".toList)).overrideMatch = true := by
  decide

/-- C8. For every query whose name matches a configured suffix, with `(suffix, ip)` the
first matching entry in the order of the loop: if `dns.NewRR` returns an error for
the text `<queried name> 60 IN A <ip>`, then `handleDNS` still writes exactly one
message, that message has the server-failure code, the identifier of the query and
an empty answer section, no upstream is contacted, and the call does not panic. -/
theorem malformed_record_gives_server_failure (NewRR : GoString → Except E RR)
    (Exchange : σ → Msg RR → GoString → Except E (Msg RR) × σ)
    (p : DNSProxy) (w : ResponseWriter) (net : σ) (r : Msg RR)
    (q0 : Question) (qs : List Question) (suffix ip : GoString) (err : E)
    (hq : r.Question = q0 :: qs)
    (hfirst : firstMatch p.domainMappings q0.Name = some (suffix, ip))
    (hrr : NewRR (q0.Name ++ " 60 IN A ".toList ++ ip) = .error err) :
    (∃ m, (handleDNS NewRR Exchange p w net r).written = [m] ∧
      m.Rcode = RcodeServerFailure ∧ m.Id = r.Id ∧ m.Answer = []) ∧
    (handleDNS NewRR Exchange p w net r).exchanged = [] ∧
    (handleDNS NewRR Exchange p w net r).panicked = false := by
  rw [handleDNS_hit NewRR Exchange p w net r hq hfirst]
  have hrr1 : NewRR (recordText q0.Name ip) = .error err := hrr
  refine ⟨⟨(Msg.new.SetReply r).SetRcode r RcodeServerFailure, ?_, serverFailure_fields r⟩,
    rfl, rfl⟩
  simp only [overrideBody, hrr1]

/-- C8, witness: the table `.docker -> 172.168.1` (three octets) and the query
`app.docker.`, with an upstream configured. -/
theorem malformed_record_gives_server_failure_witness :
    (∃ m, (handleDNS Sim.NewRR Sim.Exchange
        (Sim.proxy ["8.8.8.8".toList] [(".docker".toList, "172.168.1".toList)]) Sim.writer []
        (Sim.query 7 "app.docker.".toList)).written = [m] ∧
      m.Rcode = RcodeServerFailure ∧ m.Id = 7 ∧ m.Answer = []) ∧
    (handleDNS Sim.NewRR Sim.Exchange
        (Sim.proxy ["8.8.8.8".toList] [(".docker".toList, "172.168.1".toList)]) Sim.writer []
        (Sim.query 7 "app.docker.".toList)).exchanged = [] ∧
    (handleDNS Sim.NewRR Sim.Exchange
        (Sim.proxy ["8.8.8.8".toList] [(".docker".toList, "172.168.1".toList)]) Sim.writer []
        (Sim.query 7 "app.docker.".toList)).panicked = false :=
  malformed_record_gives_server_failure Sim.NewRR Sim.Exchange
    (Sim.proxy ["8.8.8.8".toList] [(".docker".toList, "172.168.1".toList)]) Sim.writer []
    (Sim.query 7 "app.docker.".toList)
    { Name := "app.docker.".toList, Qtype := Sim.TypeA, Qclass := Sim.ClassINET } []
    ".docker".toList "172.168.1".toList "bad A A".toList
    rfl (by decide) rfl

/-! ## Outcomes -/

/-- C9. For every configuration, every query with at least one question and every
behaviour of the upstreams, `handleDNS` does not panic, writes exactly one message,
and exactly one of the three outcomes holds: override match, upstream success, all
upstreams failed. -/
theorem exactly_one_outcome_and_one_response (NewRR : GoString → Except E RR)
    (Exchange : σ → Msg RR → GoString → Except E (Msg RR) × σ)
    (p : DNSProxy) (w : ResponseWriter) (net : σ) (r : Msg RR)
    (q0 : Question) (qs : List Question)
    (hq : r.Question = q0 :: qs) :
    (handleDNS NewRR Exchange p w net r).panicked = false ∧
    (handleDNS NewRR Exchange p w net r).written.length = 1 ∧
    (((handleDNS NewRR Exchange p w net r).overrideMatch = true ∧
        (handleDNS NewRR Exchange p w net r).upstreamSuccess = false ∧
        (handleDNS NewRR Exchange p w net r).allUpstreamsFailed = false) ∨
      ((handleDNS NewRR Exchange p w net r).overrideMatch = false ∧
        (handleDNS NewRR Exchange p w net r).upstreamSuccess = true ∧
        (handleDNS NewRR Exchange p w net r).allUpstreamsFailed = false) ∨
      ((handleDNS NewRR Exchange p w net r).overrideMatch = false ∧
        (handleDNS NewRR Exchange p w net r).upstreamSuccess = false ∧
        (handleDNS NewRR Exchange p w net r).allUpstreamsFailed = true)) := by
  cases hf : firstMatch p.domainMappings q0.Name with
  | none =>
    obtain ⟨h1, h2, h3, h4⟩ := handleDNS_outcome_miss NewRR Exchange p w net r hq hf
    refine ⟨h4, h3, Or.inr ?_⟩
    rw [h2, h1]
    cases (handleDNS NewRR Exchange p w net r).allUpstreamsFailed
    · exact Or.inl ⟨rfl, rfl, rfl⟩
    · exact Or.inr ⟨rfl, rfl, rfl⟩
  | some e =>
    obtain ⟨h1, h2, h3, h4, h5, -⟩ := handleDNS_outcome_hit NewRR Exchange p w net r hq hf
    exact ⟨h5, h4, Or.inl ⟨h1, h2, h3⟩⟩

/-- C9, witness: an unmatched query, one upstream that answers NXDOMAIN: one message
written, outcome upstream success. -/
theorem exactly_one_outcome_and_one_response_witness :
    (handleDNS Sim.NewRR Sim.Exchange (Sim.proxy ["8.8.8.8".toList] []) Sim.writer
        [.ok (Sim.upstreamReply (Sim.query 7 "nowhere.example.".toList) Sim.RcodeNameError [])]
        (Sim.query 7 "nowhere.example.".toList)).written.length = 1 ∧
    (handleDNS Sim.NewRR Sim.Exchange (Sim.proxy ["8.8.8.8".toList] []) Sim.writer
        [.ok (Sim.upstreamReply (Sim.query 7 "nowhere.example.".toList) Sim.RcodeNameError [])]
        (Sim.query 7 "nowhere.example.".toList)).upstreamSuccess = true :=
  ⟨(exactly_one_outcome_and_one_response Sim.NewRR Sim.Exchange
      (Sim.proxy ["8.8.8.8".toList] []) Sim.writer
      [.ok (Sim.upstreamReply (Sim.query 7 "nowhere.example.".toList) Sim.RcodeNameError [])]
      (Sim.query 7 "nowhere.example.".toList)
      { Name := "nowhere.example.".toList, Qtype := Sim.TypeA, Qclass := Sim.ClassINET } []
      rfl).2.1,
    rfl⟩

/-- C10. For a fixed table and a fixed query with a first question, the classification
(override hit or forwarded) is the same for every order in which the loop visits the
entries of the table, every upstream list, every behaviour and state of the
upstreams and every behaviour of the record parser. -/
theorem classification_is_deterministic (σ2 : Type) (NewRR NewRR2 : GoString → Except E RR)
    (Exchange : σ → Msg RR → GoString → Except E (Msg RR) × σ)
    (Exchange2 : σ2 → Msg RR → GoString → Except E (Msg RR) × σ2)
    (p p2 : DNSProxy) (w w2 : ResponseWriter) (net : σ) (net2 : σ2) (r : Msg RR)
    (q0 : Question) (qs : List Question)
    (hq : r.Question = q0 :: qs)
    (hperm : p.domainMappings.Perm p2.domainMappings) :
    (handleDNS NewRR Exchange p w net r).overrideMatch =
      (handleDNS NewRR2 Exchange2 p2 w2 net2 r).overrideMatch ∧
    (handleDNS NewRR Exchange p w net r).forwarded =
      (handleDNS NewRR2 Exchange2 p2 w2 net2 r).forwarded ∧
    (handleDNS NewRR Exchange p w net r).forwarded =
      !(handleDNS NewRR Exchange p w net r).overrideMatch := by
  have hiff : (handleDNS NewRR Exchange p w net r).overrideMatch = true ↔
      (handleDNS NewRR2 Exchange2 p2 w2 net2 r).overrideMatch = true := by
    rw [overrideMatch_iff_hit NewRR Exchange p w net r hq,
      overrideMatch_iff_hit NewRR2 Exchange2 p2 w2 net2 r hq]
    constructor
    · rintro ⟨e, he, hit⟩
      exact ⟨e, hperm.mem_iff.mp he, hit⟩
    · rintro ⟨e, he, hit⟩
      exact ⟨e, hperm.mem_iff.mpr he, hit⟩
  have heq : (handleDNS NewRR Exchange p w net r).overrideMatch =
      (handleDNS NewRR2 Exchange2 p2 w2 net2 r).overrideMatch :=
    Bool.eq_iff_iff.mpr hiff
  refine ⟨heq, ?_, forwarded_eq_not_overrideMatch NewRR Exchange p w net r hq⟩
  rw [forwarded_eq_not_overrideMatch NewRR Exchange p w net r hq,
    forwarded_eq_not_overrideMatch NewRR2 Exchange2 p2 w2 net2 r hq, heq]

/-- C10, witness: the table with the entries `.docker` and `.test` visited in either
order, once with an upstream that times out and once with one that answers: the query
`app.test.` is an override hit both times. -/
theorem classification_is_deterministic_witness :
    (handleDNS Sim.NewRR Sim.Exchange
        (Sim.proxy ["8.8.8.8".toList]
          [(".docker".toList, "172.168.1.1".toList), (".test".toList, "192.168.1.1".toList)])
        Sim.writer [Sim.timeout] (Sim.query 7 "app.test.".toList)).overrideMatch =
      (handleDNS Sim.NewRR Sim.Exchange
        (Sim.proxy ["1.1.1.1".toList]
          [(".test".toList, "192.168.1.1".toList), (".docker".toList, "172.168.1.1".toList)])
        Sim.writer [.ok (Sim.upstreamReply (Sim.query 7 "app.test.".toList) RcodeSuccess [])]
        (Sim.query 7 "app.test.".toList)).overrideMatch :=
  (classification_is_deterministic (List (Except GoString (Msg Sim.ARecord)))
    Sim.NewRR Sim.NewRR Sim.Exchange Sim.Exchange
    (Sim.proxy ["8.8.8.8".toList]
      [(".docker".toList, "172.168.1.1".toList), (".test".toList, "192.168.1.1".toList)])
    (Sim.proxy ["1.1.1.1".toList]
      [(".test".toList, "192.168.1.1".toList), (".docker".toList, "172.168.1.1".toList)])
    Sim.writer Sim.writer [Sim.timeout]
    [.ok (Sim.upstreamReply (Sim.query 7 "app.test.".toList) RcodeSuccess [])]
    (Sim.query 7 "app.test.".toList)
    { Name := "app.test.".toList, Qtype := Sim.TypeA, Qclass := Sim.ClassINET } []
    rfl (List.Perm.swap _ _ _)).1

/-! ## Correlation of the written messages -/

/-- C11, counterexample. An unmatched query for `example.com.` whose upstream returns a
message with the identifier of the query and the question `other.example.`: the
message written is that message, and its question section is not the question
section of the query. -/
theorem passthrough_question_is_the_upstreams :
    (handleDNS Sim.NewRR Sim.Exchange (Sim.proxy ["8.8.8.8".toList] []) Sim.writer
        [.ok (Sim.upstreamReply (Sim.query 7 "other.example.".toList) RcodeSuccess [])]
        (Sim.query 7 "example.com.".toList)).written.map (fun m => (m.Id, m.Question)) =
      [(7, [{ Name := "other.example.".toList, Qtype := Sim.TypeA, Qclass := Sim.ClassINET }])] ∧
    (Sim.query 7 "example.com.".toList).Question =
      [{ Name := "example.com.".toList, Qtype := Sim.TypeA, Qclass := Sim.ClassINET }] := by
  decide

/-- C11, as amended. For a query with first question `q0`: the message written on an
override match (the answer, or the server failure when the record cannot be built)
and the message written when all upstreams failed carry the identifier of the query
and the question section `[q0]`, which is the question section of a query with one
question; the message written on an upstream success is the message an upstream of the
list returned for the query, as returned. -/
theorem written_message_correlation (NewRR : GoString → Except E RR)
    (Exchange : σ → Msg RR → GoString → Except E (Msg RR) × σ)
    (p : DNSProxy) (w : ResponseWriter) (net : σ) (r : Msg RR)
    (q0 : Question) (qs : List Question)
    (hq : r.Question = q0 :: qs) :
    ((handleDNS NewRR Exchange p w net r).overrideMatch = true →
      ∃ m, (handleDNS NewRR Exchange p w net r).written = [m] ∧
        m.Id = r.Id ∧ m.Question = [q0]) ∧
    ((handleDNS NewRR Exchange p w net r).allUpstreamsFailed = true →
      ∃ m, (handleDNS NewRR Exchange p w net r).written = [m] ∧
        m.Id = r.Id ∧ m.Question = [q0] ∧ m.Rcode = RcodeServerFailure ∧ m.Answer = []) ∧
    ((handleDNS NewRR Exchange p w net r).upstreamSuccess = true →
      ∃ m u net1 net2, (handleDNS NewRR Exchange p w net r).written = [m] ∧
        u ∈ p.dnsServers ∧ Exchange net1 r (u ++ ":53".toList) = (.ok m, net2)) := by
  cases hf : firstMatch p.domainMappings q0.Name with
  | some e =>
    obtain ⟨-, h2, h3, -, -, -⟩ := handleDNS_outcome_hit NewRR Exchange p w net r hq hf
    refine ⟨fun _ => ?_, fun h => ?_, fun h => ?_⟩
    · rw [handleDNS_hit NewRR Exchange p w net r hq hf]
      obtain ⟨hid, hqu⟩ := overrideBody_correlated NewRR r q0.Name e.2 hq
      exact ⟨_, rfl, hid, hqu⟩
    · rw [h3] at h
      exact absurd h (by decide)
    · rw [h2] at h
      exact absurd h (by decide)
  | none =>
    obtain ⟨h1, -, -, -⟩ := handleDNS_outcome_miss NewRR Exchange p w net r hq hf
    refine ⟨fun h => ?_, ?_⟩
    · rw [h1] at h
      exact absurd h (by decide)
    rw [handleDNS_miss NewRR Exchange p w net r hq hf]
    obtain ⟨-, -, -, hout⟩ := rangeDnsServers_outcome Exchange r q0.Name p.dnsServers net 0 none
    rcases rangeDnsServers_cases Exchange r p.dnsServers net with
      ⟨net1, hall⟩ | ⟨pre, u, post, net1, resp, net2, hlist, hpre, hok⟩
    · have haf := rangeDnsServers_allFailed_outcome Exchange r q0.Name net1 p.dnsServers
        net 0 none hall
      have hw := (rangeDnsServers_allFailed Exchange r q0.Name net1 p.dnsServers
        net 0 none hall).1
      rw [haf] at hout
      constructor
      · intro _
        obtain ⟨hrc, hid, hans⟩ := serverFailure_fields r
        exact ⟨_, hw, hid, SetRcode_Question _ _ _ hq, hrc, hans⟩
      · intro h
        have h2 : (rangeDnsServers Exchange r q0.Name net 0 none p.dnsServers).upstreamSuccess =
            true := h
        rw [hout] at h2
        exact absurd h2 (by decide)
    · have hus : (rangeDnsServers Exchange r q0.Name net 0 none p.dnsServers).upstreamSuccess =
          true := by
        rw [hlist]
        exact rangeDnsServers_success_outcome Exchange r q0.Name u post resp net1 net2 hok
          pre net 0 none hpre
      have hw : (rangeDnsServers Exchange r q0.Name net 0 none p.dnsServers).written = [resp] := by
        rw [hlist]
        exact (rangeDnsServers_success Exchange r q0.Name u post resp net1 net2 hok
          pre net 0 none hpre).1
      rw [hus] at hout
      constructor
      · intro h
        have h2 : (rangeDnsServers Exchange r q0.Name net 0 none
            p.dnsServers).allUpstreamsFailed = true := h
        rw [h2] at hout
        exact absurd hout (by decide)
      · intro _
        refine ⟨resp, u, net1, net2, hw, ?_, hok⟩
        rw [hlist]
        exact List.mem_append_right _ (List.mem_cons_self _ _)

/-- C11, witness: a query with identifier 7 for `app.docker.` against the table
`.docker -> 172.168.1.1`: the answer written has identifier 7 and the question of the
query. -/
theorem written_message_correlation_witness :
    ∃ m, (handleDNS Sim.NewRR Sim.Exchange
        (Sim.proxy ["8.8.8.8".toList] [(".docker".toList, "172.168.1.1".toList)]) Sim.writer []
        (Sim.query 7 "app.docker.".toList)).written = [m] ∧
      m.Id = 7 ∧
      m.Question =
        [{ Name := "app.docker.".toList, Qtype := Sim.TypeA, Qclass := Sim.ClassINET }] :=
  (written_message_correlation Sim.NewRR Sim.Exchange
    (Sim.proxy ["8.8.8.8".toList] [(".docker".toList, "172.168.1.1".toList)]) Sim.writer []
    (Sim.query 7 "app.docker.".toList)
    { Name := "app.docker.".toList, Qtype := Sim.TypeA, Qclass := Sim.ClassINET } []
    rfl).1 (by decide)

/-! ## The configuration -/

/-- C12. For every value of the flag `-domains`, every key of the table built by `main`
starts with a dot. For a pair `d=ip` (no `=` in `d` or in `ip`), the loop body stores
`ip` under `"." ++ d` when `d` has no leading dot and under `d` itself when it has
one; and when the pair is an entry of the flag, that key is bound in the table built,
to `ip` unless a later entry of the flag stores the same key. -/
theorem mapping_keys_get_a_leading_dot (domainMappings : GoString) :
    (∀ e ∈ mainMappings domainMappings, HasPrefix e.1 ['.'] = true) ∧
    (∀ (m : List (GoString × GoString)) (d ip : GoString),
      d.count '=' = 0 → ip.count '=' = 0 →
      (HasPrefix d ['.'] = false →
        loadMapping m (d ++ '=' :: ip) = mapAssign m (['.'] ++ d) ip ∧
        (loadMapping m (d ++ '=' :: ip)).lookup (['.'] ++ d) = some ip) ∧
      (HasPrefix d ['.'] = true →
        loadMapping m (d ++ '=' :: ip) = mapAssign m d ip ∧
        (loadMapping m (d ++ '=' :: ip)).lookup d = some ip)) ∧
    (∀ (before after : List GoString) (d ip : GoString),
      Split domainMappings [','] = before ++ (d ++ '=' :: ip) :: after →
      d.count '=' = 0 → ip.count '=' = 0 →
      ∃ v, (mainMappings domainMappings).lookup
          (if HasPrefix d ['.'] = true then d else ['.'] ++ d) = some v ∧
        ((∀ e ∈ after.filterMap storedPair,
            e.1 ≠ (if HasPrefix d ['.'] = true then d else ['.'] ++ d)) → v = ip)) := by
  refine ⟨mainMappings_keys_dot domainMappings, ?_, ?_⟩
  · intro m d ip hd hip
    have hload := loadMapping_eq m (d ++ '=' :: ip)
    rw [storedPair_of_pair d ip hd hip] at hload
    constructor
    · intro hp
      have hkey : (if HasPrefix d ['.'] = true then d else ['.'] ++ d) = ['.'] ++ d := by
        rw [hp]
        rfl
      rw [hload, hkey]
      exact ⟨rfl, lookup_mapAssign_self _ _ _⟩
    · intro hp
      have hkey : (if HasPrefix d ['.'] = true then d else ['.'] ++ d) = d := by
        rw [hp]
        rfl
      rw [hload, hkey]
      exact ⟨rfl, lookup_mapAssign_self _ _ _⟩
  · intro before after d ip hsplit hd hip
    rw [mainMappings_lookup]
    unfold storedPairs
    rw [hsplit, List.filterMap_append, List.filterMap_cons, storedPair_of_pair d ip hd hip]
    generalize (if HasPrefix d ['.'] = true then d else ['.'] ++ d) = key
    simp only []
    rw [List.reverse_append, List.reverse_cons, List.lookup_append, List.lookup_append]
    have hself : List.lookup key [(key, ip)] = some ip := by
      rw [List.lookup_cons, beq_self_eq_true]
    rw [hself]
    cases hl : List.lookup key (after.filterMap storedPair).reverse with
    | none => exact ⟨ip, rfl, fun _ => rfl⟩
    | some v =>
      refine ⟨v, rfl, ?_⟩
      intro hno
      exfalso
      have hmem : ∃ e ∈ (after.filterMap storedPair).reverse, e.1 = key := by
        generalize (after.filterMap storedPair).reverse = l at hl
        induction l with
        | nil => simp at hl
        | cons x rest ih =>
          obtain ⟨k1, v1⟩ := x
          rw [List.lookup_cons] at hl
          by_cases hk : key = k1
          · exact ⟨(k1, v1), List.mem_cons_self _ _, hk.symm⟩
          · have hne : (key == k1) = false := by
              rw [beq_eq_false_iff_ne]
              exact hk
            rw [hne] at hl
            obtain ⟨e, he, hek⟩ := ih hl
            exact ⟨e, List.mem_cons_of_mem _ he, hek⟩
      obtain ⟨e, he, hek⟩ := hmem
      exact hno e (List.mem_reverse.mp he) hek

/-- C12, witness: the flag value `.docker=172.168.1.1,test=192.168.1.1` gives the keys
`.docker` and `.test`. -/
theorem mapping_keys_get_a_leading_dot_witness :
    mainMappings ".docker=172.168.1.1,test=192.168.1.1".toList =
      [(".docker".toList, "172.168.1.1".toList), (".test".toList, "192.168.1.1".toList)] ∧
    ∃ v, (mainMappings ".docker=172.168.1.1,test=192.168.1.1".toList).lookup ".test".toList =
        some v ∧
      ((∀ e ∈ ([] : List GoString).filterMap storedPair, e.1 ≠ ".test".toList) →
        v = "192.168.1.1".toList) :=
  ⟨by decide,
    (mapping_keys_get_a_leading_dot ".docker=172.168.1.1,test=192.168.1.1".toList).2.2
      [".docker=172.168.1.1".toList] [] "test".toList "192.168.1.1".toList
      (by decide) (by decide) (by decide)⟩

/-- C13. For every value of the flag `-servers`, the list built by `main` is the list of
the fields between the commas of the value, in the order of the value, each one
trimmed of its surrounding white space; it has one entry per field (one more than
there are commas). The default value gives `8.8.8.8`, `1.1.1.1`. For an unmatched
query the handler exchanges with the first `k` entries, `k` at least 1, in that order,
each at the address `entry ++ ":53"`. -/
theorem servers_are_the_trimmed_fields_in_order (dnsServers : GoString) :
    mainServers dnsServers = (Split dnsServers [',']).map TrimSpace ∧
    (mainServers dnsServers).length = dnsServers.count ',' + 1 ∧
    mainServers defaultServers = ["8.8.8.8".toList, "1.1.1.1".toList] ∧
    (∀ (NewRR : GoString → Except E RR)
      (Exchange : σ → Msg RR → GoString → Except E (Msg RR) × σ)
      (p : DNSProxy) (w : ResponseWriter) (net : σ) (r : Msg RR)
      (q0 : Question) (qs : List Question),
      p.dnsServers = mainServers dnsServers →
      r.Question = q0 :: qs →
      (∀ e ∈ p.domainMappings, suffixHit q0.Name e.1 = false) →
      ∃ k, 0 < k ∧ k ≤ (mainServers dnsServers).length ∧
        (handleDNS NewRR Exchange p w net r).exchanged =
          ((mainServers dnsServers).take k).map (fun server => server ++ ":53".toList)) := by
  have hlen : (mainServers dnsServers).length = dnsServers.count ',' + 1 := by
    rw [mainServers_eq_map, List.length_map, Split_single, fields_length]
  refine ⟨mainServers_eq_map dnsServers, hlen, by decide, ?_⟩
  intro NewRR Exchange p w net r q0 qs hp hq hmiss
  rw [handleDNS_miss NewRR Exchange p w net r hq (firstMatch_eq_none.mpr hmiss), hp]
  obtain ⟨k, hk, hpos, hex⟩ := rangeDnsServers_exchanged_prefix Exchange r q0.Name
    (mainServers dnsServers) net 0 none
  have hne : mainServers dnsServers ≠ [] := by
    intro h
    rw [h] at hlen
    exact absurd hlen (by simp)
  exact ⟨k, hpos hne, hk, hex⟩

/-- C13, witness: the value ` 10.0.0.1 , 10.0.0.2` gives the servers `10.0.0.1`,
`10.0.0.2`; with the first exchange timing out and the second answering, the
exchanges are with `10.0.0.1:53`, then `10.0.0.2:53`. -/
theorem servers_are_the_trimmed_fields_in_order_witness :
    mainServers " 10.0.0.1 , 10.0.0.2".toList = ["10.0.0.1".toList, "10.0.0.2".toList] ∧
    (handleDNS Sim.NewRR Sim.Exchange
        (mainProxy defaultListen " 10.0.0.1 , 10.0.0.2".toList defaultDomains) Sim.writer
        [Sim.timeout, .ok (Sim.upstreamReply (Sim.query 7 "example.com.".toList) RcodeSuccess [])]
        (Sim.query 7 "example.com.".toList)).exchanged =
      ["10.0.0.1:53".toList, "10.0.0.2:53".toList] ∧
    ∃ k, 0 < k ∧ k ≤ (mainServers " 10.0.0.1 , 10.0.0.2".toList).length ∧
      (handleDNS Sim.NewRR Sim.Exchange
        (mainProxy defaultListen " 10.0.0.1 , 10.0.0.2".toList defaultDomains) Sim.writer
        [Sim.timeout, .ok (Sim.upstreamReply (Sim.query 7 "example.com.".toList) RcodeSuccess [])]
        (Sim.query 7 "example.com.".toList)).exchanged =
      ((mainServers " 10.0.0.1 , 10.0.0.2".toList).take k).map
        (fun server => server ++ ":53".toList) :=
  ⟨by decide, rfl,
    (servers_are_the_trimmed_fields_in_order " 10.0.0.1 , 10.0.0.2".toList).2.2.2
      Sim.NewRR Sim.Exchange
      (mainProxy defaultListen " 10.0.0.1 , 10.0.0.2".toList defaultDomains) Sim.writer
      [Sim.timeout, .ok (Sim.upstreamReply (Sim.query 7 "example.com.".toList) RcodeSuccess [])]
      (Sim.query 7 "example.com.".toList)
      { Name := "example.com.".toList, Qtype := Sim.TypeA, Qclass := Sim.ClassINET } []
      rfl rfl (by decide)⟩

/-! ## Several matching suffixes -/

/-- C14. When the loop visits the table in the order `pre ++ (suffix, ip) :: post`, no
suffix of `pre` matches the query name and `suffix` does, the answer is built from
`ip` alone, whatever entries follow in `post` (matching or not): with `rr` the record
for `<queried name> 60 IN A <ip>`, the one message written has the answer section
`[rr]`. Consequently there are two orders of one table with two matching suffixes
bound to different addresses that give different answers for one query. -/
theorem first_matching_entry_alone_decides :
    (∀ (RR E σ : Type) (NewRR : GoString → Except E RR)
      (Exchange : σ → Msg RR → GoString → Except E (Msg RR) × σ)
      (p : DNSProxy) (w : ResponseWriter) (net : σ) (r : Msg RR)
      (q0 : Question) (qs : List Question)
      (pre post : List (GoString × GoString)) (suffix ip : GoString) (rr : RR),
      r.Question = q0 :: qs →
      p.domainMappings = pre ++ (suffix, ip) :: post →
      (∀ e ∈ pre, suffixHit q0.Name e.1 = false) →
      suffixHit q0.Name suffix = true →
      NewRR (q0.Name ++ " 60 IN A ".toList ++ ip) = .ok rr →
      (handleDNS NewRR Exchange p w net r).written =
        [{ (Msg.new.SetReply r : Msg RR) with Answer := [rr] }]) ∧
    (∃ (table1 table2 : List (GoString × GoString)) (name : GoString),
      table1.Perm table2 ∧
      (table1.map Prod.fst).Nodup ∧
      (∀ e ∈ table1, suffixHit name e.1 = true) ∧
      (handleDNS Sim.NewRR Sim.Exchange (Sim.proxy [] table1) Sim.writer []
          (Sim.query 7 name)).written.map (fun m => m.Answer.map (fun rr => rr.A)) =
        [[[10, 0, 0, 1]]] ∧
      (handleDNS Sim.NewRR Sim.Exchange (Sim.proxy [] table2) Sim.writer []
          (Sim.query 7 name)).written.map (fun m => m.Answer.map (fun rr => rr.A)) =
        [[[10, 0, 0, 2]]]) := by
  constructor
  · intro RR E σ NewRR Exchange p w net r q0 qs pre post suffix ip rr hq htable hpre hit hrr
    have hfirst : firstMatch p.domainMappings q0.Name = some (suffix, ip) := by
      rw [htable]
      exact firstMatch_append q0.Name suffix ip pre post hpre hit
    rw [handleDNS_hit NewRR Exchange p w net r hq hfirst]
    have hrr1 : NewRR (recordText q0.Name ip) = .ok rr := hrr
    simp only [overrideBody, hrr1, SetReply_Answer]
    rfl
  · exact ⟨[(".docker".toList, "10.0.0.1".toList), (".app.docker".toList, "10.0.0.2".toList)],
      [(".app.docker".toList, "10.0.0.2".toList), (".docker".toList, "10.0.0.1".toList)],
      "x.app.docker.".toList, List.Perm.swap _ _ _, by decide, by decide, by decide, by decide⟩

/-- C14, witness: the table visited as `.test`, `.docker`, `.app.docker` and the query
`x.app.docker.`: `.test` does not match, `.docker` is the first match, and the
answer is its address `10.0.0.1`, not the address of `.app.docker`. -/
theorem first_matching_entry_alone_decides_witness :
    (handleDNS Sim.NewRR Sim.Exchange
        (Sim.proxy []
          [(".test".toList, "192.168.1.1".toList), (".docker".toList, "10.0.0.1".toList),
            (".app.docker".toList, "10.0.0.2".toList)]) Sim.writer []
        (Sim.query 7 "x.app.docker.".toList)).written =
      [{ (Msg.new.SetReply (Sim.query 7 "x.app.docker.".toList) : Msg Sim.ARecord) with
          Answer := [{ Name := "x.app.docker.".toList, Rrtype := Sim.TypeA,
                       Class := Sim.ClassINET, Ttl := 60, A := [10, 0, 0, 1] }] }] :=
  first_matching_entry_alone_decides.1 Sim.ARecord GoString
    (List (Except GoString (Msg Sim.ARecord))) Sim.NewRR Sim.Exchange
    (Sim.proxy []
      [(".test".toList, "192.168.1.1".toList), (".docker".toList, "10.0.0.1".toList),
        (".app.docker".toList, "10.0.0.2".toList)]) Sim.writer []
    (Sim.query 7 "x.app.docker.".toList)
    { Name := "x.app.docker.".toList, Qtype := Sim.TypeA, Qclass := Sim.ClassINET } []
    [(".test".toList, "192.168.1.1".toList)] [(".app.docker".toList, "10.0.0.2".toList)]
    ".docker".toList "10.0.0.1".toList
    { Name := "x.app.docker.".toList, Rrtype := Sim.TypeA, Class := Sim.ClassINET,
      Ttl := 60, A := [10, 0, 0, 1] }
    rfl rfl (by decide) (by decide) rfl

/-! ## A sequence of queries -/

/-- C15. The handler called on a sequence of queries leaves the proxy (upstream list and
table) as it was. The run of a later query `(w, r)` is the run of `handleDNS` on the
unchanged proxy, from the state the network is in at that moment; for an unmatched
query its exchanges are with the first `k` upstreams of the whole list in list order
(`k` at least 1 when the list is not empty). When the results of the exchanges do not
depend on the state of the network, the exchanges, messages and log lines of the
later query are those of the same query handled alone, whatever queries came
before. -/
theorem later_query_starts_from_first_upstream (NewRR : GoString → Except E RR)
    (Exchange : σ → Msg RR → GoString → Except E (Msg RR) × σ)
    (p : DNSProxy) (net : σ) (earlier : List (ResponseWriter × Msg RR))
    (w : ResponseWriter) (r : Msg RR) (q0 : Question) (qs : List Question)
    (hearlier : ∀ x ∈ earlier, x.2.Question ≠ [])
    (hq : r.Question = q0 :: qs) :
    (serve NewRR Exchange p net (earlier ++ [(w, r)])).1 = p ∧
    (serve NewRR Exchange p net (earlier ++ [(w, r)])).2.getLast? =
      some (handleDNS NewRR Exchange p w (netAfter NewRR Exchange p net earlier) r) ∧
    ((∀ e ∈ p.domainMappings, suffixHit q0.Name e.1 = false) →
      ∃ k, k ≤ p.dnsServers.length ∧ (p.dnsServers ≠ [] → 0 < k) ∧
        (handleDNS NewRR Exchange p w (netAfter NewRR Exchange p net earlier) r).exchanged =
          (p.dnsServers.take k).map (fun server => server ++ ":53".toList)) ∧
    ((∀ (n1 n2 : σ) (m : Msg RR) (a : GoString), (Exchange n1 m a).1 = (Exchange n2 m a).1) →
      (handleDNS NewRR Exchange p w (netAfter NewRR Exchange p net earlier) r).exchanged =
        (handleDNS NewRR Exchange p w net r).exchanged ∧
      (handleDNS NewRR Exchange p w (netAfter NewRR Exchange p net earlier) r).written =
        (handleDNS NewRR Exchange p w net r).written ∧
      (handleDNS NewRR Exchange p w (netAfter NewRR Exchange p net earlier) r).logs =
        (handleDNS NewRR Exchange p w net r).logs) := by
  refine ⟨serve_proxy NewRR Exchange p _ net, serve_last NewRR Exchange p w r earlier net hearlier,
    ?_, ?_⟩
  · intro hmiss
    rw [handleDNS_miss NewRR Exchange p w _ r hq (firstMatch_eq_none.mpr hmiss)]
    exact rangeDnsServers_exchanged_prefix Exchange r q0.Name p.dnsServers _ 0 none
  · intro hind
    exact handleDNS_state_independent NewRR Exchange hind p w _ net r

/-- C15, witness: two upstreams; a first query for which the first upstream times out
and the second answers, then a second query for which the first upstream answers. The
second query is tried on the first upstream again, and only on it. -/
theorem later_query_starts_from_first_upstream_witness :
    (serve Sim.NewRR Sim.Exchange (Sim.proxy ["10.0.0.1".toList, "10.0.0.2".toList] [])
        [Sim.timeout,
          .ok (Sim.upstreamReply (Sim.query 7 "a.example.".toList) RcodeSuccess []),
          .ok (Sim.upstreamReply (Sim.query 8 "b.example.".toList) RcodeSuccess [])]
        [(Sim.writer, Sim.query 7 "a.example.".toList),
          (Sim.writer, Sim.query 8 "b.example.".toList)]).1 =
      Sim.proxy ["10.0.0.1".toList, "10.0.0.2".toList] [] ∧
    (serve Sim.NewRR Sim.Exchange (Sim.proxy ["10.0.0.1".toList, "10.0.0.2".toList] [])
        [Sim.timeout,
          .ok (Sim.upstreamReply (Sim.query 7 "a.example.".toList) RcodeSuccess []),
          .ok (Sim.upstreamReply (Sim.query 8 "b.example.".toList) RcodeSuccess [])]
        [(Sim.writer, Sim.query 7 "a.example.".toList),
          (Sim.writer, Sim.query 8 "b.example.".toList)]).2.map (fun run => run.exchanged) =
      [["10.0.0.1:53".toList, "10.0.0.2:53".toList], ["10.0.0.1:53".toList]] :=
  ⟨(later_query_starts_from_first_upstream Sim.NewRR Sim.Exchange
      (Sim.proxy ["10.0.0.1".toList, "10.0.0.2".toList] [])
      [Sim.timeout,
        .ok (Sim.upstreamReply (Sim.query 7 "a.example.".toList) RcodeSuccess []),
        .ok (Sim.upstreamReply (Sim.query 8 "b.example.".toList) RcodeSuccess [])]
      [(Sim.writer, Sim.query 7 "a.example.".toList)]
      Sim.writer (Sim.query 8 "b.example.".toList)
      { Name := "b.example.".toList, Qtype := Sim.TypeA, Qclass := Sim.ClassINET } []
      (by decide) rfl).1,
    rfl⟩

/-! ## The first question -/

/-- C16. `handleDNS` reads `r.Question[0]` without a check. For a query with a non-empty
question section the index 0 is in bounds, the call does not panic and writes one
message. For a query with an empty question section the index is out of bounds: the
call panics, and nothing is logged, exchanged or written. -/
theorem first_question_is_read_unchecked (NewRR : GoString → Except E RR)
    (Exchange : σ → Msg RR → GoString → Except E (Msg RR) × σ)
    (p : DNSProxy) (w : ResponseWriter) (net : σ) (r : Msg RR) :
    (r.Question ≠ [] →
      0 < r.Question.length ∧
      (handleDNS NewRR Exchange p w net r).panicked = false ∧
      (handleDNS NewRR Exchange p w net r).written.length = 1) ∧
    (r.Question = [] →
      ¬ 0 < r.Question.length ∧
      (handleDNS NewRR Exchange p w net r).panicked = true ∧
      (handleDNS NewRR Exchange p w net r).written = [] ∧
      (handleDNS NewRR Exchange p w net r).exchanged = [] ∧
      (handleDNS NewRR Exchange p w net r).logs = []) := by
  constructor
  · intro hq
    obtain ⟨h1, h2⟩ := handleDNS_no_panic NewRR Exchange p w net r hq
    exact ⟨List.length_pos.mpr hq, h1, h2⟩
  · intro hq
    rw [handleDNS_panic NewRR Exchange p w net r hq, hq]
    exact ⟨Nat.lt_irrefl 0, rfl, rfl, rfl, rfl⟩

/-- C16, witness: a message with identifier 7 and no question, against a table and an
upstream: the call panics and writes nothing. -/
theorem first_question_is_read_unchecked_witness :
    (handleDNS Sim.NewRR Sim.Exchange
        (Sim.proxy ["8.8.8.8".toList] [(".docker".toList, "172.168.1.1".toList)]) Sim.writer []
        { (Msg.new : Msg Sim.ARecord) with Id := 7 }).panicked = true ∧
    (handleDNS Sim.NewRR Sim.Exchange
        (Sim.proxy ["8.8.8.8".toList] [(".docker".toList, "172.168.1.1".toList)]) Sim.writer []
        { (Msg.new : Msg Sim.ARecord) with Id := 7 }).written = [] :=
  have h := (first_question_is_read_unchecked Sim.NewRR Sim.Exchange
    (Sim.proxy ["8.8.8.8".toList] [(".docker".toList, "172.168.1.1".toList)]) Sim.writer []
    { (Msg.new : Msg Sim.ARecord) with Id := 7 }).2 rfl
  ⟨h.2.1, h.2.2.1⟩

/-! ## Degenerate and bare suffixes -/

/-- C17. The flag values `=1.2.3.4` and `.=1.2.3.4` both give the table with the one key
`.`. A key that is empty after the removal of one trailing dot matches every query
name; with such a key in the table every query with a question is an override match:
it is not forwarded and no upstream is contacted. -/
theorem empty_suffix_matches_every_query :
    mainMappings "=1.2.3.4".toList = [(['.'], "1.2.3.4".toList)] ∧
    mainMappings ".=1.2.3.4".toList = [(['.'], "1.2.3.4".toList)] ∧
    TrimSuffix ['.'] ['.'] = [] ∧
    (∀ (key queryName : GoString), TrimSuffix key ['.'] = [] →
      suffixHit queryName key = true) ∧
    (∀ (RR E σ : Type) (NewRR : GoString → Except E RR)
      (Exchange : σ → Msg RR → GoString → Except E (Msg RR) × σ)
      (p : DNSProxy) (w : ResponseWriter) (net : σ) (r : Msg RR)
      (q0 : Question) (qs : List Question) (key ip : GoString),
      r.Question = q0 :: qs →
      (key, ip) ∈ p.domainMappings →
      TrimSuffix key ['.'] = [] →
      (handleDNS NewRR Exchange p w net r).overrideMatch = true ∧
      (handleDNS NewRR Exchange p w net r).forwarded = false ∧
      (handleDNS NewRR Exchange p w net r).exchanged = []) := by
  refine ⟨by decide, by decide, by decide, ?_, ?_⟩
  · intro key queryName h
    exact suffixHit_of_empty_key queryName key h
  · intro RR E σ NewRR Exchange p w net r q0 qs key ip hq hmem hkey
    obtain ⟨e, hf, -, -⟩ := firstMatch_of_hit
      ⟨(key, ip), hmem, suffixHit_of_empty_key q0.Name key hkey⟩
    obtain ⟨h1, -, -, -, -, h6⟩ := handleDNS_outcome_hit NewRR Exchange p w net r hq hf
    refine ⟨h1, ?_, h6⟩
    rw [forwarded_eq_not_overrideMatch NewRR Exchange p w net r hq, h1]
    rfl

/-- C17, witness: the proxy built from the flag `-domains =1.2.3.4` and the default
servers answers the query `example.com.` locally, without an exchange. -/
theorem empty_suffix_matches_every_query_witness :
    (handleDNS Sim.NewRR Sim.Exchange
        (mainProxy defaultListen defaultServers "=1.2.3.4".toList) Sim.writer []
        (Sim.query 7 "example.com.".toList)).overrideMatch = true ∧
    (handleDNS Sim.NewRR Sim.Exchange
        (mainProxy defaultListen defaultServers "=1.2.3.4".toList) Sim.writer []
        (Sim.query 7 "example.com.".toList)).forwarded = false ∧
    (handleDNS Sim.NewRR Sim.Exchange
        (mainProxy defaultListen defaultServers "=1.2.3.4".toList) Sim.writer []
        (Sim.query 7 "example.com.".toList)).exchanged = [] :=
  empty_suffix_matches_every_query.2.2.2.2 Sim.ARecord GoString
    (List (Except GoString (Msg Sim.ARecord))) Sim.NewRR Sim.Exchange
    (mainProxy defaultListen defaultServers "=1.2.3.4".toList) Sim.writer []
    (Sim.query 7 "example.com.".toList)
    { Name := "example.com.".toList, Qtype := Sim.TypeA, Qclass := Sim.ClassINET } []
    ['.'] "1.2.3.4".toList rfl (by decide) (by decide)

/-- C18. For every non-empty lower-case domain `d` without a trailing dot and the table
with the single entry `"." ++ d -> ip`: the query name `d ++ "."` is not an override
match and is forwarded, while every query name `x ++ "." ++ d ++ "."` is an override
match. -/
theorem bare_domain_misses_its_own_entry (NewRR : GoString → Except E RR)
    (Exchange : σ → Msg RR → GoString → Except E (Msg RR) × σ)
    (p : DNSProxy) (w : ResponseWriter) (net : σ) (d ip : GoString)
    (hne : d ≠ []) (hlow : ToLower d = d) (hdot : d.getLast? ≠ some '.')
    (htable : p.domainMappings = [(['.'] ++ d, ip)]) :
    (∀ (r : Msg RR) (q0 : Question) (qs : List Question),
      r.Question = q0 :: qs → q0.Name = d ++ ['.'] →
      (handleDNS NewRR Exchange p w net r).overrideMatch = false ∧
      (handleDNS NewRR Exchange p w net r).forwarded = true) ∧
    (∀ (x : GoString) (r : Msg RR) (q0 : Question) (qs : List Question),
      r.Question = q0 :: qs → q0.Name = x ++ ['.'] ++ d ++ ['.'] →
      (handleDNS NewRR Exchange p w net r).overrideMatch = true ∧
      (handleDNS NewRR Exchange p w net r).forwarded = false) := by
  constructor
  · intro r q0 qs hq hname
    have hf : firstMatch p.domainMappings q0.Name = none := by
      rw [firstMatch_eq_none, htable, hname]
      intro e he
      rw [List.mem_singleton] at he
      rw [he]
      exact suffixHit_bare_domain d hne hdot
    have h1 := (handleDNS_outcome_miss NewRR Exchange p w net r hq hf).1
    refine ⟨h1, ?_⟩
    rw [forwarded_eq_not_overrideMatch NewRR Exchange p w net r hq, h1]
    rfl
  · intro x r q0 qs hq hname
    have hit : ∃ e ∈ p.domainMappings, suffixHit q0.Name e.1 = true := by
      rw [htable, hname]
      exact ⟨(['.'] ++ d, ip), List.mem_singleton.mpr rfl, suffixHit_subdomain x d hne hlow hdot⟩
    have h1 := (overrideMatch_iff_hit NewRR Exchange p w net r hq).mpr hit
    refine ⟨h1, ?_⟩
    rw [forwarded_eq_not_overrideMatch NewRR Exchange p w net r hq, h1]
    rfl

/-- C18, witness: the flag `-domains docker=172.168.1.1` gives the key `.docker`; the
query `docker.` is forwarded to the upstream, the query `app.docker.` is an override
match. -/
theorem bare_domain_misses_its_own_entry_witness :
    mainMappings "docker=172.168.1.1".toList = [(['.'] ++ "docker".toList, "172.168.1.1".toList)] ∧
    (handleDNS Sim.NewRR Sim.Exchange
        (mainProxy defaultListen "8.8.8.8".toList "docker=172.168.1.1".toList) Sim.writer []
        (Sim.query 7 "docker.".toList)).forwarded = true ∧
    (handleDNS Sim.NewRR Sim.Exchange
        (mainProxy defaultListen "8.8.8.8".toList "docker=172.168.1.1".toList) Sim.writer []
        (Sim.query 7 "docker.".toList)).exchanged = ["8.8.8.8:53".toList] ∧
    (handleDNS Sim.NewRR Sim.Exchange
        (mainProxy defaultListen "8.8.8.8".toList "docker=172.168.1.1".toList) Sim.writer []
        (Sim.query 8 "app.docker.".toList)).overrideMatch = true :=
  have h := bare_domain_misses_its_own_entry Sim.NewRR Sim.Exchange
    (mainProxy defaultListen "8.8.8.8".toList "docker=172.168.1.1".toList) Sim.writer []
    "docker".toList "172.168.1.1".toList (by decide) (by decide) (by decide) (by decide)
  ⟨by decide,
    (h.1 (Sim.query 7 "docker.".toList)
      { Name := "docker.".toList, Qtype := Sim.TypeA, Qclass := Sim.ClassINET } [] rfl rfl).2,
    rfl,
    (h.2 "app".toList (Sim.query 8 "app.docker.".toList)
      { Name := "app.docker.".toList, Qtype := Sim.TypeA, Qclass := Sim.ClassINET } [] rfl rfl).1⟩

/-! ## The question type -/

/-- C19. For every table and any two queries whose first questions have the same name,
whatever their types and classes: both are override matches or neither is; and on a
match both answers are built from the same text `<queried name> 60 IN A <ip>`, `ip`
the target of the first matching entry, so both answer sections are the same: the
one record `dns.NewRR` builds from that text, or none when it rejects the text. -/
theorem override_ignores_question_type (NewRR : GoString → Except E RR)
    (Exchange : σ → Msg RR → GoString → Except E (Msg RR) × σ)
    (p : DNSProxy) (w1 w2 : ResponseWriter) (net1 net2 : σ) (r1 r2 : Msg RR)
    (q1 q2 : Question) (qs1 qs2 : List Question)
    (hq1 : r1.Question = q1 :: qs1) (hq2 : r2.Question = q2 :: qs2)
    (hname : q1.Name = q2.Name) :
    (handleDNS NewRR Exchange p w1 net1 r1).overrideMatch =
      (handleDNS NewRR Exchange p w2 net2 r2).overrideMatch ∧
    ((handleDNS NewRR Exchange p w1 net1 r1).overrideMatch = true →
      ∃ suffix ip, firstMatch p.domainMappings q1.Name = some (suffix, ip) ∧
        (handleDNS NewRR Exchange p w1 net1 r1).written.map (fun m => m.Answer) =
          [match NewRR (q1.Name ++ " 60 IN A ".toList ++ ip) with
            | .ok rr => [rr]
            | .error _ => []] ∧
        (handleDNS NewRR Exchange p w2 net2 r2).written.map (fun m => m.Answer) =
          (handleDNS NewRR Exchange p w1 net1 r1).written.map (fun m => m.Answer)) := by
  constructor
  · rw [Bool.eq_iff_iff, overrideMatch_iff_hit NewRR Exchange p w1 net1 r1 hq1,
      overrideMatch_iff_hit NewRR Exchange p w2 net2 r2 hq2, hname]
  · intro hm
    obtain ⟨e, hf, -, -⟩ := firstMatch_of_hit
      ((overrideMatch_iff_hit NewRR Exchange p w1 net1 r1 hq1).mp hm)
    have hf2 : firstMatch p.domainMappings q2.Name = some e := by
      rw [← hname]
      exact hf
    refine ⟨e.1, e.2, hf, ?_, ?_⟩
    · rw [handleDNS_hit NewRR Exchange p w1 net1 r1 hq1 hf]
      show [(overrideBody NewRR r1 q1.Name e.2).2.Answer] = _
      rw [overrideBody_answer]
      rfl
    · rw [handleDNS_hit NewRR Exchange p w1 net1 r1 hq1 hf,
        handleDNS_hit NewRR Exchange p w2 net2 r2 hq2 hf2]
      show [(overrideBody NewRR r2 q2.Name e.2).2.Answer] =
        [(overrideBody NewRR r1 q1.Name e.2).2.Answer]
      rw [overrideBody_answer, overrideBody_answer, hname]

/-- C19, witness: the queries `app.docker.` of type A and of type AAAA against the
table `.docker -> 172.168.1.1`: the second gets the same answer section, one record
of type A. -/
theorem override_ignores_question_type_witness :
    (handleDNS Sim.NewRR Sim.Exchange
        (Sim.proxy ["8.8.8.8".toList] [(".docker".toList, "172.168.1.1".toList)]) Sim.writer []
        (Sim.queryOfType 8 "app.docker.".toList Sim.TypeAAAA)).overrideMatch = true ∧
    (handleDNS Sim.NewRR Sim.Exchange
        (Sim.proxy ["8.8.8.8".toList] [(".docker".toList, "172.168.1.1".toList)]) Sim.writer []
        (Sim.queryOfType 8 "app.docker.".toList Sim.TypeAAAA)).written.map (fun m => m.Answer) =
      [[{ Name := "app.docker.".toList, Rrtype := Sim.TypeA, Class := Sim.ClassINET,
          Ttl := 60, A := [172, 168, 1, 1] }]] :=
  have h := override_ignores_question_type Sim.NewRR Sim.Exchange
    (Sim.proxy ["8.8.8.8".toList] [(".docker".toList, "172.168.1.1".toList)])
    Sim.writer Sim.writer [] []
    (Sim.queryOfType 7 "app.docker.".toList Sim.TypeA)
    (Sim.queryOfType 8 "app.docker.".toList Sim.TypeAAAA)
    { Name := "app.docker.".toList, Qtype := Sim.TypeA, Qclass := Sim.ClassINET }
    { Name := "app.docker.".toList, Qtype := Sim.TypeAAAA, Qclass := Sim.ClassINET }
    [] [] rfl rfl rfl
  ⟨h.1.symm.trans (by decide), by decide⟩

/-! ## The entries of the flag `-domains` -/

/-- C20. An entry splits on `=` into one part more than it has `=`. The loop body leaves
the map unchanged for an entry that has no `=` or more than one, and for an entry
with exactly one `=` it stores the part after it under the part before it (with the
leading dot). The table built from a flag value is the result of storing the pairs
of its entries in order; it has at most one entry per key, and a key is bound to the
value of the last pair stored under it. The empty flag value gives the empty
table. -/
theorem domains_parser_skips_and_replaces (domainMappings : GoString) :
    (∀ mapping : GoString, (Split mapping ['=']).length = mapping.count '=' + 1) ∧
    (∀ (m : List (GoString × GoString)) (mapping : GoString),
      mapping.count '=' ≠ 1 → loadMapping m mapping = m) ∧
    (∀ (m : List (GoString × GoString)) (mapping : GoString),
      mapping.count '=' = 1 →
      ∃ k v, Split mapping ['='] = [mapping.takeWhile (fun c => c != '='), v] ∧
        storedPair mapping = some (k, v) ∧ loadMapping m mapping = mapAssign m k v ∧
        (loadMapping m mapping).lookup k = some v) ∧
    mainMappings domainMappings =
      (storedPairs domainMappings).foldl (fun acc e => mapAssign acc e.1 e.2) [] ∧
    ((mainMappings domainMappings).map Prod.fst).Nodup ∧
    (∀ k : GoString,
      (mainMappings domainMappings).lookup k = (storedPairs domainMappings).reverse.lookup k) ∧
    mainMappings [] = [] := by
  refine ⟨?_, ?_, ?_, mainMappings_eq domainMappings, ?_,
    mainMappings_lookup domainMappings, rfl⟩
  · intro mapping
    rw [Split_single, fields_length]
  · intro m mapping h
    rw [loadMapping_eq]
    unfold storedPair
    rw [if_neg h]
  · intro m mapping h
    have hsp : storedPair mapping =
        some (if (mapping.takeWhile (fun c => c != '=')).head? = some '.'
            then mapping.takeWhile (fun c => c != '=')
            else '.' :: mapping.takeWhile (fun c => c != '='),
          (mapping.dropWhile (fun c => c != '=')).drop 1) := by
      unfold storedPair
      rw [if_pos h]
    refine ⟨_, _, ?_, hsp, ?_, ?_⟩
    · rw [Split_single, fields_count_one '=' mapping h]
    · rw [loadMapping_eq, hsp]
    · rw [loadMapping_eq, hsp]
      exact lookup_mapAssign_self _ _ _
  · rw [mainMappings_eq]
    exact nodup_keys_foldl_mapAssign _ [] List.nodup_nil

/-- C20, witness: the flag value `test=1.1.1.1,bad,a=b=c,,.test=2.2.2.2` gives the table
with the single entry `.test -> 2.2.2.2`. -/
theorem domains_parser_skips_and_replaces_witness :
    mainMappings "test=1.1.1.1,bad,a=b=c,,.test=2.2.2.2".toList =
      [(".test".toList, "2.2.2.2".toList)] ∧
    storedPairs "test=1.1.1.1,bad,a=b=c,,.test=2.2.2.2".toList =
      [(".test".toList, "1.1.1.1".toList), (".test".toList, "2.2.2.2".toList)] ∧
    (mainMappings "test=1.1.1.1,bad,a=b=c,,.test=2.2.2.2".toList).lookup ".test".toList =
      (storedPairs "test=1.1.1.1,bad,a=b=c,,.test=2.2.2.2".toList).reverse.lookup
        ".test".toList :=
  ⟨by decide, by decide,
    (domains_parser_skips_and_replaces
      "test=1.1.1.1,bad,a=b=c,,.test=2.2.2.2".toList).2.2.2.2.2.1 ".test".toList⟩

end Claims

end Proccdns

